import Mathlib

/-!
# ogn-tracker: the Control task (`control.c`)

A shallow embedding of `src/control.c` and `src/hpt_timer.h`.

* C enumerations become inductive types, C structures become Lean structures.
* Global variables (`hpt_table`, `TX_pkt_data`, the Radio queue, ...) are
  threaded explicitly through the functions that touch them.
* Calls into other modules (Console, Spirit1, GPS, the ST peripheral library,
  FreeRTOS) are recorded as effects, in call order.
* Constants and macros that live in headers outside `src/` (`options.h`,
  `messages.h`, `ogn_lib.h`, `timer_const.h`, ...) are fields of `Headers`;
  nothing is assumed about their values beyond what a theorem states.
-/

namespace OgnTracker

/-! ## Data model -/

/-- Enumeration `htp_opcodes`.  The first six enumerators are the ones of
`hpt_timer.h`; the last four are the further enumerators that the tables of
`control.c` use (`HPT_COPY_PKT`, `HPT_SP1_CHANNEL`, `HPT_TX_PKT_LBT`,
`HPT_IWDG_RELOAD`). -/
inductive htp_opcodes
  | HPT_END
  | HPT_RESTART
  | HPT_GPIO_UP
  | HPT_GPIO_DOWN
  | HPT_PREPARE_PKT
  | HPT_SEND_PKT
  | HPT_COPY_PKT
  | HPT_SP1_CHANNEL
  | HPT_TX_PKT_LBT
  | HPT_IWDG_RELOAD
  deriving DecidableEq, Repr

open htp_opcodes

/-- Structure `HPT_Event` as the initialisers of `control.c` fill it:
`{ time, event, event data (optional) }`. -/
structure HPT_Event where
  time : Nat
  opcode : htp_opcodes
  data : Nat
  deriving DecidableEq, Repr

/-- Structure `task_message` (`messages.h`), with the four members that
`control.c` assigns. -/
structure task_message where
  msg_data : Nat
  msg_len : Nat
  msg_opcode : Nat
  src_id : Nat
  deriving DecidableEq, Repr

/-- Constants and macros that `control.c` takes from headers outside `src/`. -/
structure Headers where
  /-- macro `TIMER_MS(x)` of `timer_const.h`: milliseconds to timer units -/
  TIMER_MS : Nat → Nat
  /-- enumerators of `oper_modes` (`options.h`) -/
  MODE_OGN : Nat
  MODE_IDLE : Nat
  MODE_CW : Nat
  MODE_RX : Nat
  MODE_JAMMER : Nat
  /-- packet length in bytes (`ogn_lib.h`) -/
  OGN_PKT_LEN : Nat
  /-- Radio task opcodes (`spirit1.h`) -/
  SP1_COPY_OGN_PKT : Nat
  SP1_TX_PACKET : Nat
  /-- message source identifiers (`messages.h`) -/
  CONTROL_SRC_ID : Nat
  CONSOLE_USART_SRC_ID : Nat
  /-- backup register number and magic value of the shutdown marker -/
  SHDN_REG_NUM : Nat
  SHDN_MAGIC_NUM : Nat
  /-- integer value of each `htp_opcodes` enumerator, as carried in
  `task_message.msg_opcode` -/
  opcodeValue : htp_opcodes → Nat

/-- The macro `#define MAX_HPT_TABLE_LEN  16`. -/
def MAX_HPT_TABLE_LEN : Nat := 16

/-! ## HPT tables -/

/-- The call `memcpy(dst, src, sizeof(src))` on event arrays: the leading
`src.length` cells of `dst` are overwritten, the rest is kept. -/
def memcpyEvents (dst src : List HPT_Event) : List HPT_Event :=
  src ++ dst.drop src.length

/-- The local array `Table_OGN` of `Create_HPT_Table_OGN`. -/
def Table_OGN (K : Headers) : List HPT_Event :=
  [ ⟨K.TIMER_MS 150,  HPT_COPY_PKT,    0⟩,
    ⟨K.TIMER_MS 300,  HPT_SP1_CHANNEL, 4⟩,
    ⟨K.TIMER_MS 400,  HPT_TX_PKT_LBT,  380⟩,
    ⟨K.TIMER_MS 800,  HPT_SP1_CHANNEL, 2⟩,
    ⟨K.TIMER_MS 800,  HPT_TX_PKT_LBT,  380⟩,
    ⟨K.TIMER_MS 925,  HPT_IWDG_RELOAD, 0⟩,
    ⟨K.TIMER_MS 950,  HPT_PREPARE_PKT, 0⟩,
    ⟨K.TIMER_MS 1000, HPT_RESTART,     0⟩ ]

/-- The local array `Table_Idle` of `Create_HPT_Table_Idle`. -/
def Table_Idle (K : Headers) : List HPT_Event :=
  [ ⟨K.TIMER_MS 925,  HPT_IWDG_RELOAD, 0⟩,
    ⟨K.TIMER_MS 1000, HPT_RESTART,     0⟩ ]

/-- The local array `Table_Idle_Freq` of `Create_HPT_Table_Idle_Freq`. -/
def Table_Idle_Freq (K : Headers) : List HPT_Event :=
  [ ⟨K.TIMER_MS 300,  HPT_SP1_CHANNEL, 4⟩,
    ⟨K.TIMER_MS 800,  HPT_SP1_CHANNEL, 2⟩,
    ⟨K.TIMER_MS 925,  HPT_IWDG_RELOAD, 0⟩,
    ⟨K.TIMER_MS 1000, HPT_RESTART,     0⟩ ]

/-- Function `Create_HPT_Table_OGN`: copies `Table_OGN` into the caller's array and
returns the number of entries; the result is (array, return value). -/
def Create_HPT_Table_OGN (K : Headers) (hpt_table_arr : List HPT_Event) :
    List HPT_Event × Nat :=
  (memcpyEvents hpt_table_arr (Table_OGN K), (Table_OGN K).length)

/-- Function `Create_HPT_Table_Idle`. -/
def Create_HPT_Table_Idle (K : Headers) (hpt_table_arr : List HPT_Event) :
    List HPT_Event × Nat :=
  (memcpyEvents hpt_table_arr (Table_Idle K), (Table_Idle K).length)

/-- Function `Create_HPT_Table_Idle_Freq`. -/
def Create_HPT_Table_Idle_Freq (K : Headers) (hpt_table_arr : List HPT_Event) :
    List HPT_Event × Nat :=
  (memcpyEvents hpt_table_arr (Table_Idle_Freq K), (Table_Idle_Freq K).length)

/-- The `switch (oper_mode)` of `vTaskControl` that fills the global
`hpt_table`.  The result is the array after the call together with the
entry count the selected `Create_HPT_Table_*` returns (which `vTaskControl`
itself discards). -/
def vTaskControl_select (K : Headers) (oper_mode : Nat) (hpt_table : List HPT_Event) :
    List HPT_Event × Nat :=
  if oper_mode = K.MODE_OGN then Create_HPT_Table_OGN K hpt_table
  else if oper_mode = K.MODE_IDLE ∨ oper_mode = K.MODE_CW ∨ oper_mode = K.MODE_RX then
    Create_HPT_Table_Idle K hpt_table
  else if oper_mode = K.MODE_JAMMER then Create_HPT_Table_Idle_Freq K hpt_table
  else Create_HPT_Table_OGN K hpt_table

/-- The event table held in `hpt_table` once `vTaskControl` has selected it:
the entries the `Create_HPT_Table_*` call wrote. -/
def loadedTable (K : Headers) (oper_mode : Nat) (hpt_table : List HPT_Event) :
    List HPT_Event :=
  (vTaskControl_select K oper_mode hpt_table).1.take
    (vTaskControl_select K oper_mode hpt_table).2

/-- Well-formed event table: at most `MAX_HPT_TABLE_LEN` entries, offsets
non-decreasing, last entry `HPT_RESTART`, no earlier `HPT_RESTART`. -/
def WellFormedTable (T : List HPT_Event) : Prop :=
  T.length ≤ MAX_HPT_TABLE_LEN ∧
  (T.map HPT_Event.time).Sorted (· ≤ ·) ∧
  T.getLast?.map HPT_Event.opcode = some HPT_RESTART ∧
  ∀ e ∈ T.dropLast, e.opcode ≠ HPT_RESTART

/-- A sample `Headers` value: `TIMER_MS` the identity, 26-byte packets. -/
def sampleHeaders : Headers where
  TIMER_MS := fun x => x
  MODE_OGN := 0
  MODE_IDLE := 1
  MODE_CW := 2
  MODE_RX := 3
  MODE_JAMMER := 4
  OGN_PKT_LEN := 26
  SP1_COPY_OGN_PKT := 1
  SP1_TX_PACKET := 2
  CONTROL_SRC_ID := 3
  CONSOLE_USART_SRC_ID := 4
  SHDN_REG_NUM := 1
  SHDN_MAGIC_NUM := 0xADEF
  opcodeValue := fun o =>
    match o with
    | HPT_END => 1
    | HPT_RESTART => 2
    | HPT_GPIO_UP => 3
    | HPT_GPIO_DOWN => 4
    | HPT_PREPARE_PKT => 5
    | HPT_SEND_PKT => 6
    | HPT_COPY_PKT => 7
    | HPT_SP1_CHANNEL => 8
    | HPT_TX_PKT_LBT => 9
    | HPT_IWDG_RELOAD => 10

/-- An `hpt_table` array of `MAX_HPT_TABLE_LEN` cells with arbitrary content. -/
def sampleArray : List HPT_Event := List.replicate 16 ⟨0, HPT_END, 0⟩

/-! ## Effects of calls into other modules -/

/-- External calls made by `control.c`, recorded in call order. -/
inductive Effect
  /-- the call `Console_Send(str, block)`; `str` as character codes up to the NUL -/
  | Console_Send (str : List Nat) (block : Nat)
  /-- the call `Spirit1EnterShutdown()` -/
  | Spirit1EnterShutdown
  /-- the call `GPS_Off()` -/
  | GPS_Off
  /-- the call `GPIO_DeInit(GPIOC)` -/
  | GPIO_DeInit_GPIOC
  /-- the call `RTC_WriteBackupRegister(reg, value)` -/
  | RTC_WriteBackupRegister (reg value : Nat)
  /-- the call `vTaskDelay(ticks)` -/
  | vTaskDelay (ticks : Nat)
  /-- the call `NVIC_SystemReset()` -/
  | NVIC_SystemReset
  /-- the call `xQueueSend(*Get_SP1Queue(), &msg, portMAX_DELAY)` -/
  | xQueueSend_SP1 (msg : task_message)
  /-- the call `xTimerStart(xCtrlTaskTimer, 0)` -/
  | xTimerStart_CtrlTaskTimer
  deriving DecidableEq, Repr

open Effect

/-- The messages a trace puts on the Radio (Spirit1) queue, in send order. -/
def sp1Sent : List Effect → List task_message
  | [] => []
  | xQueueSend_SP1 m :: tr => m :: sp1Sent tr
  | _ :: tr => sp1Sent tr

/-- Character codes of a C string literal. -/
def cLiteral (s : String) : List Nat := s.toList.map Char.toNat

/-! ## Power-down sequence -/

/-- Function `PreShutDownSequence`: the calls it makes are appended to the trace. -/
def PreShutDownSequence (K : Headers) (tr : List Effect) : List Effect :=
  let tr := tr ++ [Console_Send (cLiteral "Shutdown...\r\n") 1]
  let tr := tr ++ [Spirit1EnterShutdown]
  let tr := tr ++ [GPS_Off]
  let tr := tr ++ [GPIO_DeInit_GPIOC]
  let tr := tr ++ [RTC_WriteBackupRegister K.SHDN_REG_NUM K.SHDN_MAGIC_NUM]
  let tr := tr ++ [vTaskDelay 500]
  tr ++ [NVIC_SystemReset]

/-- Function `vPwrDownTimerCallback`; `pc13` is whether
`GPIO_ReadInputDataBit(GPIOC, GPIO_Pin_13)` returns `Bit_SET`. -/
def vPwrDownTimerCallback (K : Headers) (pc13 : Bool) (tr : List Effect) : List Effect :=
  if pc13 then PreShutDownSequence K tr else tr

/-! ## Jammer retry timer -/

/-- Function `vCtrlTaskTimerCallback`; `jam_ratio_opt` is the byte
`*(uint8_t *)GetOption(OPT_JAM_RATIO)` and `rand` the value `rand()` returns
(non-negative). -/
def vCtrlTaskTimerCallback (K : Headers) (jam_ratio_opt rand : Nat) (tr : List Effect) :
    List Effect :=
  let jam_ratio := jam_ratio_opt % 256
  let rnd_100 := (rand % 100) % 256
  let tr :=
    if rnd_100 < jam_ratio then
      tr ++ [xQueueSend_SP1
        { msg_data := 0, msg_len := 0, msg_opcode := K.SP1_TX_PACKET,
          src_id := K.CONSOLE_USART_SRC_ID }]
    else tr
  tr ++ [xTimerStart_CtrlTaskTimer]

/-! ## Messages from the High Precision Timer task -/

/-- Globals of the Control task touched by `Handle_hpt_msgs`. -/
structure ControlState where
  /-- the global `uint8_t* TX_pkt_data`; `0` is `NULL` -/
  TX_pkt_data : Nat
  /-- external calls made so far -/
  trace : List Effect
  deriving DecidableEq, Repr

/-- State at start-up: `uint8_t* TX_pkt_data = NULL;`, nothing sent. -/
def initialControlState : ControlState := ⟨0, []⟩

/-- Function `Handle_hpt_msgs`; `prepared` is the pointer `OGN_PreparePacket()` returns
if it is called for this message. -/
def Handle_hpt_msgs (K : Headers) (s : ControlState) (msg : task_message) (prepared : Nat) :
    ControlState :=
  if msg.msg_opcode = K.opcodeValue HPT_PREPARE_PKT then
    { s with TX_pkt_data := prepared }
  else if msg.msg_opcode = K.opcodeValue HPT_COPY_PKT then
    { s with trace := s.trace ++ [xQueueSend_SP1
        { msg_data := s.TX_pkt_data % 2 ^ 32, msg_len := K.OGN_PKT_LEN,
          msg_opcode := K.SP1_COPY_OGN_PKT, src_id := K.CONTROL_SRC_ID }] }
  else s

/-- Function `Handle_hpt_msgs` applied to a sequence of messages, each paired with what
`OGN_PreparePacket()` would return at that point. -/
def handleAll (K : Headers) (s : ControlState) (inputs : List (task_message × Nat)) :
    ControlState :=
  inputs.foldl (fun st x => Handle_hpt_msgs K st x.1 x.2) s

/-- Result of the most recent prepare event of a message sequence, or `init`
when the sequence has none. -/
def lastPrepared (K : Headers) (init : Nat) : List (task_message × Nat) → Nat
  | [] => init
  | x :: rest =>
    lastPrepared K (if x.1.msg_opcode = K.opcodeValue HPT_PREPARE_PKT then x.2 else init) rest

/-- The message a copy event forwards to Radio for the cached pointer `p`. -/
def copyMessage (K : Headers) (p : Nat) : task_message :=
  { msg_data := p % 2 ^ 32, msg_len := K.OGN_PKT_LEN,
    msg_opcode := K.SP1_COPY_OGN_PKT, src_id := K.CONTROL_SRC_ID }

/-- A message carrying opcode `o` from the timer task. -/
def hptMessage (K : Headers) (o : htp_opcodes) : task_message :=
  { msg_data := 0, msg_len := 0, msg_opcode := K.opcodeValue o, src_id := 0 }

/-! ## PPS interrupt and the HPT scheduler -/

/-- Modelled from the spec: the state of the HPT scheduler (`hpt_timer.c`, not
in `src/`), which "owns the active event table; advances elapsed time; fires
time-ordered actions; can be forcibly resynchronized from an interrupt". -/
structure HPTState where
  /-- the active event table -/
  table : List HPT_Event
  /-- elapsed time within the cycle, in ticks -/
  elapsed : Nat
  /-- index of the next pending entry of the table -/
  index : Nat
  /-- the events whose action has executed, oldest first, each with the
  elapsed time at which it fired -/
  fired : List (Nat × HPT_Event)
  /-- number of `HPT_RestartFromISR` calls so far -/
  restarts : Nat
  deriving DecidableEq, Repr

/-- Modelled from the spec: `HPT_Start(hpt_table)` (body in `hpt_timer.c`, not
in `src/`): the table becomes the active one and "`Start()` begins advancing
elapsed time", from zero, at the first entry. -/
def HPT_Start (hpt_table : List HPT_Event) : HPTState :=
  { table := hpt_table, elapsed := 0, index := 0, fired := [], restarts := 0 }

/-- Modelled from the spec: `HPT_RestartFromISR` (declared in `hpt_timer.h`,
body in `hpt_timer.c`, not in `src/`) "resets elapsed time and table index to
zero from interrupt context and reports whether a higher-priority task should
run next".  It executes no event.  `woken` is what the call reports. -/
def HPT_RestartFromISR (woken : Bool) (h : HPTState) : HPTState × Bool :=
  ({ h with elapsed := 0, index := 0, restarts := h.restarts + 1 }, woken)

/-- Modelled from the spec: the scheduler's comparison (`hpt_timer.c`, not in
`src/`): "elapsed time is compared against the next pending event's offset;
on reaching it, the event's action executes [...] then the index advances.
Reaching a `Restart` event [...] immediately resets elapsed time and index to
zero".  Entries that are due at the same time fire one after the other; the
first argument bounds their number. -/
def hptFireDue : Nat → HPTState → HPTState
  | 0, h => h
  | fuel + 1, h =>
    match h.table[h.index]? with
    | none => h
    | some ev =>
      if ev.time ≤ h.elapsed then
        if ev.opcode = HPT_RESTART then
          { h with elapsed := 0, index := 0, fired := h.fired ++ [(h.elapsed, ev)] }
        else
          hptFireDue fuel
            { h with index := h.index + 1, fired := h.fired ++ [(h.elapsed, ev)] }
      else h

/-- Modelled from the spec: one tick of the "hardware tick source": elapsed
time advances by one, then the entries that are due fire. -/
def hptTick (h : HPTState) : HPTState :=
  hptFireDue h.table.length { h with elapsed := h.elapsed + 1 }

/-- The scheduler after `n` ticks without a PPS edge. -/
def hptRun : Nat → HPTState → HPTState
  | 0, h => h
  | n + 1, h => hptTick (hptRun n h)

/-- What `EXTI9_5_IRQHandler` leaves behind. -/
structure PpsIsrResult where
  /-- EXTI line 6 pending bit after the handler -/
  pending6 : Bool
  /-- scheduler state after the handler -/
  hpt : HPTState
  /-- argument of `portYIELD_FROM_ISR` -/
  yield : Bool
  deriving DecidableEq, Repr

/-- Function `EXTI9_5_IRQHandler`; `pending6` is whether
`EXTI_GetITStatus(EXTI_Line6) != RESET`. -/
def EXTI9_5_IRQHandler (woken : Bool) (pending6 : Bool) (h : HPTState) : PpsIsrResult :=
  let xHigherPriorityTaskWoken := false
  if pending6 then
    let r := HPT_RestartFromISR woken h
    { pending6 := false, hpt := r.1, yield := r.2 }
  else
    { pending6 := pending6, hpt := h, yield := xHigherPriorityTaskWoken }

/-- Modelled from the spec: one tick in which the interrupt handler may run:
"the PPS path always wins, even if it races an about-to-fire event", it
"always preempts a pending, about-to-fire scheduled event": the handler is
served before the scheduler processes the tick. -/
def ppsTick (woken pending6 : Bool) (h : HPTState) : HPTState :=
  hptTick (EXTI9_5_IRQHandler woken pending6 h).hpt

/-- The Protocol table of the sample headers, 399 ticks into the cycle: the
first two entries have fired and the transmit entry at 400 is about to. -/
def sampleScheduler : HPTState :=
  { table := Table_OGN sampleHeaders, elapsed := 399, index := 2,
    fired := [(150, ⟨150, HPT_COPY_PKT, 0⟩), (300, ⟨300, HPT_SP1_CHANNEL, 4⟩)],
    restarts := 0 }

/-! ## Power button debounce -/

/-- Modelled from the spec: FreeRTOS `xTimerStartFromISR` applied to the
one-shot timer `xPowerDownTimer`, created with period `TIMER_MS(1000)`: "a
wake-line edge (re)starts a one-second one-shot debounce timer; a second edge
before expiry restarts the timer from that point rather than accumulating".
A timer is its expiry tick while it runs and `none` while it is stopped. -/
def xTimerStartFromISR (K : Headers) (now : Nat) (_xTimer : Option Nat) : Option Nat :=
  some (now + K.TIMER_MS 1000)

/-- What `EXTI15_10_IRQHandler` leaves behind. -/
structure WakeIsrResult where
  /-- EXTI line 13 pending bit after the handler -/
  pending13 : Bool
  /-- the power-down timer after the handler -/
  xPowerDownTimer : Option Nat
  /-- argument of `portYIELD_FROM_ISR` -/
  yield : Bool
  deriving DecidableEq, Repr

/-- Function `EXTI15_10_IRQHandler` run at tick `now`; `pending13` is whether
`EXTI_GetITStatus(EXTI_Line13) != RESET` and `woken` what
`xTimerStartFromISR` stores in `xHigherPriorityTaskWoken`. -/
def EXTI15_10_IRQHandler (K : Headers) (woken : Bool) (now : Nat) (pending13 : Bool)
    (xPowerDownTimer : Option Nat) : WakeIsrResult :=
  let xHigherPriorityTaskWoken := false
  if pending13 then
    { pending13 := false,
      xPowerDownTimer := xTimerStartFromISR K now xPowerDownTimer,
      yield := woken }
  else
    { pending13 := pending13, xPowerDownTimer := xPowerDownTimer,
      yield := xHigherPriorityTaskWoken }

/-- What the environment supplies at each tick. -/
structure PowerInputs where
  /-- a wake-line edge sets EXTI line 13 pending at this tick -/
  edge : Nat → Bool
  /-- whether `GPIO_ReadInputDataBit(GPIOC, GPIO_Pin_13) == Bit_SET` at this tick -/
  pc13 : Nat → Bool
  /-- what `xTimerStartFromISR` reports at this tick -/
  woken : Nat → Bool

/-- The power sequencer over time. -/
structure PowerWorld where
  /-- expiry tick of `xPowerDownTimer` while it runs -/
  xPowerDownTimer : Option Nat
  /-- ticks at which `vPwrDownTimerCallback` has run -/
  runs : List Nat
  /-- external calls made so far -/
  trace : List Effect
  deriving DecidableEq, Repr

/-- The system has gone through `NVIC_SystemReset`. -/
def PowerWorld.halted (w : PowerWorld) : Bool := decide (NVIC_SystemReset ∈ w.trace)

/-- One tick `t`: a timer that expires at `t` stops and runs its callback;
then a pending wake-line interrupt is served.  Nothing happens after the
reset. -/
def powerTick (K : Headers) (inp : PowerInputs) (t : Nat) (w : PowerWorld) : PowerWorld :=
  if w.halted then w
  else
    let w1 : PowerWorld :=
      if w.xPowerDownTimer = some t then
        { xPowerDownTimer := none, runs := w.runs ++ [t],
          trace := vPwrDownTimerCallback K (inp.pc13 t) w.trace }
      else w
    if w1.halted then w1
    else
      { w1 with
        xPowerDownTimer :=
          (EXTI15_10_IRQHandler K (inp.woken t) t (inp.edge t) w1.xPowerDownTimer).xPowerDownTimer }

/-- The world before tick `T`, from a stopped timer. -/
def powerRun (K : Headers) (inp : PowerInputs) : Nat → PowerWorld
  | 0 => { xPowerDownTimer := none, runs := [], trace := [] }
  | t + 1 => powerTick K inp t (powerRun K inp t)

/-- The most recent tick before `T` with a wake-line edge. -/
def lastEdge (edge : Nat → Bool) : Nat → Option Nat
  | 0 => none
  | t + 1 => if edge t then some t else lastEdge edge t

/-! ## Packet dump -/

/-- Function `print_hex_val(data, dest)` with `dest = &buffer[off]`; the result is the
buffer after the two writes and the return value. -/
def print_hex_val (data : Nat) (buffer : List Nat) (off : Nat) : List Nat × Nat :=
  let data := data % 256
  let t := data >>> 4
  let buffer := buffer.set off (if t > 9 then t + 65 - 0x0A else t + 48)
  let t := data &&& 0x0F
  let buffer := buffer.set (off + 1) (if t > 9 then t + 65 - 0x0A else t + 48)
  (buffer, 2)

/-- The loop `for (i=0; i < OGN_PKT_LEN; i++) ctr += print_hex_val(bytes[i], &buffer[ctr]);`
started with `ctr = 0`; the result is (buffer, ctr). -/
def hexLoop (K : Headers) (bytes buffer : List Nat) : List Nat × Nat :=
  (List.range K.OGN_PKT_LEN).foldl
    (fun st i =>
      let r := print_hex_val (bytes.getD i 0) st.1 st.2
      (r.1, st.2 + r.2))
    (buffer, 0)

/-- One dump line of `Print_packet`: the loop, then
`buffer[ctr++] = '\r'; buffer[ctr++] = '\n'; buffer[ctr++] = '\0';`. -/
def hexLine (K : Headers) (bytes buffer : List Nat) : List Nat :=
  let st := hexLoop K bytes buffer
  let buffer := st.1.set st.2 13
  let buffer := buffer.set (st.2 + 1) 10
  buffer.set (st.2 + 2) 0

/-- The C string held in a buffer: the characters before the first NUL. -/
def cString (buffer : List Nat) : List Nat := buffer.takeWhile (fun c => decide (c ≠ 0))

/-- Decimal digits of a natural number, as character codes. -/
def decimal (n : Nat) : List Nat := (Nat.toDigits 10 n).map Char.toNat

/-- Conversion `%d` of `sprintf`. -/
def fmt_d (i : Int) : List Nat :=
  if i < 0 then 45 :: decimal i.natAbs else decimal i.natAbs

/-- Conversion `%+d` of `sprintf`: the sign is always printed. -/
def fmt_plus_d (i : Int) : List Nat :=
  (if i < 0 then 45 else 43) :: decimal i.natAbs

/-- Rounding of a rational to the nearest integer, ties to the even one. -/
def roundHalfEven (y : ℚ) : Int :=
  let f := ⌊y⌋
  let r := y - f
  if r < 1 / 2 then f
  else if 1 / 2 < r then f + 1
  else if f % 2 = 0 then f else f + 1

/-- The `float` (IEEE 754 binary32) nearest to a rational, ties to even: 24
significant bits, least exponent `-149`.  This is the rounding of every
`float` operation and of a conversion to `float`.  Magnitudes beyond the
largest finite `float` are not taken to infinity; `rssiFields` does not reach
them. -/
def roundBinary32 (x : ℚ) : ℚ :=
  if x = 0 then 0
  else
    let e : Int := max (Int.log 2 |x| - 23) (-149)
    (roundHalfEven (x / 2 ^ e) : ℚ) * 2 ^ e

/-- The arguments `Int` and `Frac` that `Print_packet` passes to `sprintf`
for the RSSI value `packet->rssi`.  The local `rssi` is a `float`, so the
assignment, the subtraction `rssi-Int` and the product with `10` each round
to binary32; `floor` takes the `float` as a `double` and is exact.  The
conversion `(int)` of a value outside the range of a 32-bit `int` is
undefined in C: the result is `none` there. -/
def rssiFields (rssi : ℚ) : Option (Int × Int) :=
  let rssi := roundBinary32 rssi
  let Neg := decide (rssi < 0)
  let rssi := if rssi < 0 then -rssi else rssi
  if ⌊rssi⌋ < 2 ^ 31 then
    let Int' : Int := ⌊rssi⌋
    let Frac : Int := ⌊roundBinary32 (roundBinary32 (rssi - roundBinary32 Int') * 10)⌋
    let Int' := if Neg then -Int' else Int'
    some (Int', Frac)
  else none

/-- The part `%+d.%ddBm` of the first line; empty where `rssiFields` is
undefined and C gives the line no meaning. -/
def rssiText (rssi : ℚ) : List Nat :=
  match rssiFields rssi with
  | some (i, f) => fmt_plus_d i ++ cLiteral "." ++ fmt_d f ++ cLiteral "dBm"
  | none => []

/-- Structure `rcv_packet_str` as `Print_packet` reads it. -/
structure rcv_packet_str where
  rssi : ℚ
  lqi : Int
  pqi : Int
  sqi : Int
  /-- the bytes at `data_ptr` -/
  data_ptr : List Nat
  /-- the bytes at `err_ptr` -/
  err_ptr : List Nat

/-- The text `sprintf` produces for the first line. -/
def firstLine (packet : rcv_packet_str) : List Nat :=
  cLiteral "Packet received: RSSI: " ++ rssiText packet.rssi ++
    cLiteral ", LQI: " ++ fmt_d packet.lqi ++ cLiteral ", PQI: " ++ fmt_d packet.pqi ++
    cLiteral ", SQI: " ++ fmt_d packet.sqi ++ cLiteral "\r\n"

/-- Function `sprintf(buffer, ...)`: the text and its NUL overwrite the start of the
buffer. -/
def sprintf (buffer text : List Nat) : List Nat :=
  text ++ [0] ++ buffer.drop (text.length + 1)

/-- Function `Print_packet`; `buffer` is the content of the local `char buffer[80]` on
entry. -/
def Print_packet (K : Headers) (packet : rcv_packet_str) (buffer : List Nat)
    (tr : List Effect) : List Effect :=
  let buffer := sprintf buffer (firstLine packet)
  let tr := tr ++ [Console_Send (cString buffer) 1]
  let buffer := hexLine K packet.data_ptr buffer
  let tr := tr ++ [Console_Send (cString buffer) 1]
  let buffer := hexLine K packet.err_ptr buffer
  tr ++ [Console_Send (cString buffer) 1]

/-- Value of a hexadecimal digit `0-9`, `A-F`. -/
def hexVal (c : Nat) : Option Nat :=
  if 48 ≤ c ∧ c ≤ 57 then some (c - 48)
  else if 65 ≤ c ∧ c ≤ 70 then some (c - 55)
  else none

/-- Reads a text of hexadecimal digit pairs (high nibble first) back into
bytes. -/
def decodeHex : List Nat → Option (List Nat)
  | [] => some []
  | [_] => none
  | a :: b :: rest =>
    match hexVal a, hexVal b, decodeHex rest with
    | some x, some y, some r => some ((16 * x + y) :: r)
    | _, _, _ => none

/-- The character for a nibble `0..15`: `0`-`9`, then `A`-`F`. -/
def hexChar (t : Nat) : Nat := if t < 10 then 48 + t else 55 + t

/-- Text of a byte sequence: two hexadecimal digits per byte, high nibble
first. -/
def hexText : List Nat → List Nat
  | [] => []
  | b :: rest => hexChar (b / 16) :: hexChar (b % 16) :: hexText rest

/-- A sample packet for two-byte packets. -/
def samplePacket : rcv_packet_str :=
  { rssi := -1 / 2, lqi := 0, pqi := 0, sqi := 0,
    data_ptr := [0x3A, 0xF0], err_ptr := [0x00, 0x81] }

/-- Sample headers with two-byte packets. -/
def smallHeaders : Headers := { sampleHeaders with OGN_PKT_LEN := 2 }

/-- Sample headers with a 100 ms timer unit: `TIMER_MS(1000)` is 10 ticks. -/
def tickHeaders : Headers := { sampleHeaders with TIMER_MS := fun x => x / 100 }

/-- Sample inputs: wake-line edges at ticks 1 and 4, PC13 set at tick 14 only. -/
def sampleInputs : PowerInputs :=
  { edge := fun t => decide (t = 1 ∨ t = 4),
    pc13 := fun t => decide (t = 14),
    woken := fun _ => false }

/-! ## Listen-before-talk windows of the Protocol table -/

/-- The Protocol table: the entries `Create_HPT_Table_OGN` writes into the
caller's array. -/
def protocolTable (K : Headers) (hpt_table_arr : List HPT_Event) : List HPT_Event :=
  (Create_HPT_Table_OGN K hpt_table_arr).1.take (Create_HPT_Table_OGN K hpt_table_arr).2

/-- The events of a table over two consecutive cycles, each with the time at
which it is scheduled: every entry at its offset, then every entry at its
offset plus the cycle length. -/
def twoCycles (T : List HPT_Event) (cycle : Nat) : List (Nat × HPT_Event) :=
  T.map (fun f => (f.time, f)) ++ T.map (fun f => (f.time + cycle, f))

/-- The `HPT_SP1_CHANNEL` and `HPT_COPY_PKT` events scheduled inside the
window `[O, O+W)` of the entry `e`, where `O` is its offset and `W` its event
data. -/
def windowDisturbers (T : List HPT_Event) (cycle : Nat) (e : HPT_Event) :
    List (Nat × HPT_Event) :=
  (twoCycles T cycle).filter (fun p =>
    decide ((p.2.opcode = HPT_SP1_CHANNEL ∨ p.2.opcode = HPT_COPY_PKT) ∧
      e.time ≤ p.1 ∧ p.1 < e.time + e.data))

/-- No `HPT_SP1_CHANNEL` or `HPT_COPY_PKT` event is scheduled inside the
window of any `HPT_TX_PKT_LBT` entry of the table. -/
def lbtWindowsClear (T : List HPT_Event) (cycle : Nat) : Bool :=
  T.all (fun e => decide (e.opcode = HPT_TX_PKT_LBT → windowDisturbers T cycle e = []))

/-! ## Helper lemmas -/

theorem memcpyEvents_length (dst src : List HPT_Event) (h : src.length ≤ dst.length) :
    (memcpyEvents dst src).length = dst.length := by
  simp [memcpyEvents]; omega

theorem memcpyEvents_take (dst src : List HPT_Event) :
    (memcpyEvents dst src).take src.length = src := by
  simp [memcpyEvents]

theorem loadedTable_cases (K : Headers) (m : Nat) (arr : List HPT_Event) :
    loadedTable K m arr = Table_OGN K ∨ loadedTable K m arr = Table_Idle K ∨
      loadedTable K m arr = Table_Idle_Freq K := by
  unfold loadedTable vTaskControl_select
  split_ifs
  · left; exact memcpyEvents_take _ _
  · right; left; exact memcpyEvents_take _ _
  · right; right; exact memcpyEvents_take _ _
  · left; exact memcpyEvents_take _ _

theorem wellFormed_Table_OGN (K : Headers) (hm : Monotone K.TIMER_MS) :
    WellFormedTable (Table_OGN K) := by
  have h1 : K.TIMER_MS 150 ≤ K.TIMER_MS 300 := hm (by norm_num)
  have h2 : K.TIMER_MS 300 ≤ K.TIMER_MS 400 := hm (by norm_num)
  have h3 : K.TIMER_MS 400 ≤ K.TIMER_MS 800 := hm (by norm_num)
  have h4 : K.TIMER_MS 800 ≤ K.TIMER_MS 925 := hm (by norm_num)
  have h5 : K.TIMER_MS 925 ≤ K.TIMER_MS 950 := hm (by norm_num)
  have h6 : K.TIMER_MS 950 ≤ K.TIMER_MS 1000 := hm (by norm_num)
  refine ⟨by simp [Table_OGN, MAX_HPT_TABLE_LEN], ?_, by simp [Table_OGN], ?_⟩
  · simp only [Table_OGN, List.map, List.Sorted, List.pairwise_cons, List.mem_cons,
      List.mem_singleton, List.not_mem_nil, forall_eq_or_imp, forall_eq, List.Pairwise.nil]
    simp
    omega
  · simp [Table_OGN]

theorem wellFormed_Table_Idle (K : Headers) (hm : Monotone K.TIMER_MS) :
    WellFormedTable (Table_Idle K) := by
  have h1 : K.TIMER_MS 925 ≤ K.TIMER_MS 1000 := hm (by norm_num)
  refine ⟨by simp [Table_Idle, MAX_HPT_TABLE_LEN], ?_, by simp [Table_Idle], ?_⟩
  · simp [Table_Idle, List.Sorted]; omega
  · simp [Table_Idle]

theorem wellFormed_Table_Idle_Freq (K : Headers) (hm : Monotone K.TIMER_MS) :
    WellFormedTable (Table_Idle_Freq K) := by
  have h1 : K.TIMER_MS 300 ≤ K.TIMER_MS 800 := hm (by norm_num)
  have h2 : K.TIMER_MS 800 ≤ K.TIMER_MS 925 := hm (by norm_num)
  have h3 : K.TIMER_MS 925 ≤ K.TIMER_MS 1000 := hm (by norm_num)
  refine ⟨by simp [Table_Idle_Freq, MAX_HPT_TABLE_LEN], ?_, by simp [Table_Idle_Freq], ?_⟩
  · simp [Table_Idle_Freq, List.Sorted]; omega
  · simp [Table_Idle_Freq]

theorem sp1Sent_append (a b : List Effect) : sp1Sent (a ++ b) = sp1Sent a ++ sp1Sent b := by
  induction a with
  | nil => rfl
  | cons e tr ih => cases e <;> simp [sp1Sent, ih]

theorem filter_lt_range_length (n p : Nat) (h : p ≤ n) :
    ((List.range n).filter (fun x => decide (x < p))).length = p := by
  induction n with
  | zero => simp at h; simp [h]
  | succ n ih =>
    rw [List.range_succ, List.filter_append, List.length_append]
    rcases Nat.lt_or_ge n p with hlt | hge
    · have hp : p = n + 1 := by omega
      subst hp
      have hall : (List.range n).filter (fun x => decide (x < n + 1)) = List.range n := by
        rw [List.filter_eq_self]
        intro a ha
        have := List.mem_range.mp ha
        simp; omega
      simp [hall]
    · have hnot : ¬ n < p := by omega
      simp [ih hge, hnot]

theorem handleAll_append (K : Headers) (s : ControlState)
    (xs ys : List (task_message × Nat)) :
    handleAll K s (xs ++ ys) = handleAll K (handleAll K s xs) ys := by
  simp [handleAll, List.foldl_append]

theorem handleAll_TX_pkt_data (K : Headers) (inputs : List (task_message × Nat))
    (s : ControlState) :
    (handleAll K s inputs).TX_pkt_data = lastPrepared K s.TX_pkt_data inputs := by
  induction inputs generalizing s with
  | nil => rfl
  | cons x rest ih =>
    have hstep : handleAll K s (x :: rest) = handleAll K (Handle_hpt_msgs K s x.1 x.2) rest := rfl
    rw [hstep, ih]
    simp only [lastPrepared]
    congr 1
    unfold Handle_hpt_msgs
    split_ifs <;> rfl

theorem lastPrepared_no_prepare (K : Headers) (init : Nat)
    (mid : List (task_message × Nat))
    (h : ∀ x ∈ mid, x.1.msg_opcode ≠ K.opcodeValue HPT_PREPARE_PKT) :
    lastPrepared K init mid = init := by
  induction mid generalizing init with
  | nil => rfl
  | cons x rest ih =>
    have hx : x.1.msg_opcode ≠ K.opcodeValue HPT_PREPARE_PKT := h x (List.mem_cons_self _ _)
    simp only [lastPrepared, if_neg hx]
    exact ih init (fun y hy => h y (List.mem_cons_of_mem _ hy))

theorem lastPrepared_append (K : Headers) (init : Nat)
    (xs ys : List (task_message × Nat)) :
    lastPrepared K init (xs ++ ys) = lastPrepared K (lastPrepared K init xs) ys := by
  induction xs generalizing init with
  | nil => rfl
  | cons x rest ih => simp only [List.cons_append, lastPrepared]; exact ih _

theorem Handle_hpt_msgs_copy (K : Headers) (s : ControlState) (msg : task_message)
    (prepared : Nat)
    (hd : K.opcodeValue HPT_COPY_PKT ≠ K.opcodeValue HPT_PREPARE_PKT)
    (hop : msg.msg_opcode = K.opcodeValue HPT_COPY_PKT) :
    Handle_hpt_msgs K s msg prepared =
      { s with trace := s.trace ++ [xQueueSend_SP1 (copyMessage K s.TX_pkt_data)] } := by
  unfold Handle_hpt_msgs copyMessage
  rw [if_neg (by rw [hop]; exact hd), if_pos hop]

theorem lastEdge_eq_some_iff (edge : Nat → Bool) (T e : Nat) :
    lastEdge edge T = some e ↔
      e < T ∧ edge e = true ∧ ∀ u, e < u → u < T → edge u = false := by
  induction T with
  | zero => simp [lastEdge]
  | succ T ih =>
    simp only [lastEdge]
    by_cases hT : edge T = true
    · rw [if_pos hT]
      constructor
      · intro h
        injection h with h
        subst h
        exact ⟨Nat.lt_succ_self _, hT, fun u h1 h2 => by omega⟩
      · rintro ⟨h1, h2, h3⟩
        by_contra hne
        have hlt : e < T := by
          have : e ≠ T := fun h => hne (by rw [h])
          omega
        have := h3 T hlt (Nat.lt_succ_self _)
        rw [hT] at this
        exact Bool.noConfusion this
    · rw [if_neg hT, ih]
      have hTf : edge T = false := by simpa using hT
      constructor
      · rintro ⟨h1, h2, h3⟩
        refine ⟨by omega, h2, fun u hu1 hu2 => ?_⟩
        rcases Nat.lt_or_ge u T with h | h
        · exact h3 u hu1 h
        · have : u = T := by omega
          rw [this]; exact hTf
      · rintro ⟨h1, h2, h3⟩
        have hne : e ≠ T := by
          intro h
          rw [h, hTf] at h2
          exact Bool.noConfusion h2
        exact ⟨by omega, h2, fun u hu1 hu2 => h3 u hu1 (by omega)⟩

theorem PreShutDownSequence_halts (K : Headers) (tr : List Effect) :
    NVIC_SystemReset ∈ PreShutDownSequence K tr := by
  simp [PreShutDownSequence]

theorem powerTick_halted (K : Headers) (inp : PowerInputs) (t : Nat) (w : PowerWorld)
    (hw : w.halted = true) : powerTick K inp t w = w := by
  unfold powerTick
  rw [if_pos hw]

theorem powerTick_idle (K : Headers) (inp : PowerInputs) (t : Nat) (w : PowerWorld)
    (hw : w.halted = false) (hne : w.xPowerDownTimer ≠ some t) :
    powerTick K inp t w =
      { w with xPowerDownTimer :=
          if inp.edge t then some (t + K.TIMER_MS 1000) else w.xPowerDownTimer } := by
  unfold powerTick
  simp only [hw, if_neg hne, Bool.false_eq_true, if_false, EXTI15_10_IRQHandler,
    xTimerStartFromISR]
  split_ifs <;> rfl

theorem powerTick_fire_clear (K : Headers) (inp : PowerInputs) (t : Nat) (w : PowerWorld)
    (hw : w.halted = false) (hfire : w.xPowerDownTimer = some t)
    (hpin : inp.pc13 t = false) :
    powerTick K inp t w =
      { xPowerDownTimer := if inp.edge t then some (t + K.TIMER_MS 1000) else none,
        runs := w.runs ++ [t], trace := w.trace } := by
  have hw' : decide (NVIC_SystemReset ∈ w.trace) = false := hw
  unfold powerTick
  simp only [hw, if_pos hfire, Bool.false_eq_true, if_false, EXTI15_10_IRQHandler,
    xTimerStartFromISR, vPwrDownTimerCallback, hpin, PowerWorld.halted, hw']
  split_ifs <;> rfl

theorem powerTick_fire_set (K : Headers) (inp : PowerInputs) (t : Nat) (w : PowerWorld)
    (hw : w.halted = false) (hfire : w.xPowerDownTimer = some t)
    (hpin : inp.pc13 t = true) :
    powerTick K inp t w =
      { xPowerDownTimer := none, runs := w.runs ++ [t],
        trace := PreShutDownSequence K w.trace } := by
  have hh : decide (NVIC_SystemReset ∈ PreShutDownSequence K w.trace) = true :=
    decide_eq_true (PreShutDownSequence_halts K w.trace)
  have hw' : decide (NVIC_SystemReset ∈ w.trace) = false := hw
  unfold powerTick
  simp only [if_pos hfire, Bool.false_eq_true, if_false, vPwrDownTimerCallback, hpin,
    if_true, PowerWorld.halted, hh, hw']

theorem powerRun_not_halted_pred (K : Headers) (inp : PowerInputs) (T : Nat)
    (h : (powerRun K inp (T + 1)).halted = false) : (powerRun K inp T).halted = false := by
  by_contra hc
  have hc' : (powerRun K inp T).halted = true := by simpa using hc
  have : powerRun K inp (T + 1) = powerRun K inp T := powerTick_halted K inp T _ hc'
  rw [this, hc'] at h
  exact Bool.noConfusion h

theorem powerRun_timer (K : Headers) (inp : PowerInputs) (hP : 0 < K.TIMER_MS 1000)
    (T : Nat) (hrun : (powerRun K inp T).halted = false) (d : Nat) :
    (powerRun K inp T).xPowerDownTimer = some d ↔
      ∃ e, lastEdge inp.edge T = some e ∧ d = e + K.TIMER_MS 1000 ∧ T ≤ d := by
  induction T generalizing d with
  | zero => simp [powerRun, lastEdge]
  | succ T ih =>
    have hw := powerRun_not_halted_pred K inp T hrun
    have ih' := ih hw
    have hstep : powerRun K inp (T + 1) = powerTick K inp T (powerRun K inp T) := rfl
    have htimer : (powerRun K inp (T + 1)).xPowerDownTimer =
        if inp.edge T then some (T + K.TIMER_MS 1000)
        else if (powerRun K inp T).xPowerDownTimer = some T then none
        else (powerRun K inp T).xPowerDownTimer := by
      by_cases hfire : (powerRun K inp T).xPowerDownTimer = some T
      · cases hpin : inp.pc13 T
        · rw [hstep, powerTick_fire_clear K inp T _ hw hfire hpin]
          simp only [if_pos hfire]
        · exfalso
          rw [hstep, powerTick_fire_set K inp T _ hw hfire hpin] at hrun
          have := PreShutDownSequence_halts K (powerRun K inp T).trace
          simp [PowerWorld.halted] at hrun
          exact hrun this
      · rw [hstep, powerTick_idle K inp T _ hw hfire]
        simp only [if_neg hfire]
    rw [htimer]
    simp only [lastEdge]
    by_cases hedge : inp.edge T = true
    · simp only [hedge, if_true]
      constructor
      · intro h
        injection h with h
        exact ⟨T, rfl, h.symm, by omega⟩
      · rintro ⟨e, he, hd, _⟩
        injection he with he
        rw [hd, he]
    · have hedge' : inp.edge T = false := by simpa using hedge
      simp only [hedge', Bool.false_eq_true, if_false]
      by_cases hfire : (powerRun K inp T).xPowerDownTimer = some T
      · rw [if_pos hfire]
        obtain ⟨e0, he0, hT, _⟩ := (ih' T).mp hfire
        constructor
        · intro h; exact Option.noConfusion h
        · rintro ⟨e, he, hd, hle⟩
          rw [he0] at he
          injection he with he
          omega
      · rw [if_neg hfire, ih' d]
        constructor
        · rintro ⟨e, he, hd, hle⟩
          refine ⟨e, he, hd, ?_⟩
          have hne : d ≠ T := by
            intro h
            apply hfire
            rw [(ih' d).mpr ⟨e, he, hd, hle⟩, h]
          omega
        · rintro ⟨e, he, hd, hle⟩
          exact ⟨e, he, hd, by omega⟩

theorem set_at_append (pre : List Nat) (x : Nat) (post : List Nat) (c n : Nat)
    (hn : n = pre.length) : (pre ++ x :: post).set n c = pre ++ c :: post := by
  subst hn
  rw [List.set_append_right _ _ (le_refl _)]
  simp

theorem print_hex_val_eq (b : Nat) (hb : b < 256) (pre : List Nat) (x y : Nat)
    (post : List Nat) (off : Nat) (hoff : off = pre.length) :
    print_hex_val b (pre ++ x :: y :: post) off =
      (pre ++ hexChar (b / 16) :: hexChar (b % 16) :: post, 2) := by
  have hmod : b % 256 = b := Nat.mod_eq_of_lt hb
  have hshift : b >>> 4 = b / 16 := by simp [Nat.shiftRight_eq_div_pow]
  have hand : b &&& 0x0F = b % 16 := Nat.and_pow_two_sub_one_eq_mod b 4
  have hhi : (if b / 16 > 9 then b / 16 + 65 - 0x0A else b / 16 + 48) = hexChar (b / 16) := by
    unfold hexChar; split_ifs <;> omega
  have hlo : (if b % 16 > 9 then b % 16 + 65 - 0x0A else b % 16 + 48) = hexChar (b % 16) := by
    unfold hexChar; split_ifs <;> omega
  unfold print_hex_val
  simp only [hmod, hshift, hand, hhi, hlo]
  rw [set_at_append pre x (y :: post) _ off hoff]
  have h2 : pre ++ hexChar (b / 16) :: y :: post = (pre ++ [hexChar (b / 16)]) ++ y :: post := by
    simp
  rw [h2, set_at_append (pre ++ [hexChar (b / 16)]) y post _ (off + 1) (by simp [hoff])]
  simp

theorem hexText_append (xs ys : List Nat) : hexText (xs ++ ys) = hexText xs ++ hexText ys := by
  induction xs with
  | nil => rfl
  | cons b rest ih => simp [hexText, ih]

theorem hexText_length (xs : List Nat) : (hexText xs).length = 2 * xs.length := by
  induction xs with
  | nil => rfl
  | cons b rest ih => simp [hexText, ih]; omega

theorem hexChar_ne_zero (t : Nat) : hexChar t ≠ 0 := by
  unfold hexChar; split_ifs <;> omega

theorem hexVal_hexChar (t : Nat) (ht : t < 16) : hexVal (hexChar t) = some t := by
  unfold hexVal hexChar
  split_ifs <;> (congr 1; omega)

theorem decodeHex_hexText (xs : List Nat) (h : ∀ x ∈ xs, x < 256) :
    decodeHex (hexText xs) = some xs := by
  induction xs with
  | nil => rfl
  | cons b rest ih =>
    have hb : b < 256 := h b (List.mem_cons_self _ _)
    have hrest := ih (fun x hx => h x (List.mem_cons_of_mem _ hx))
    simp only [hexText, decodeHex, hexVal_hexChar (b / 16) (by omega),
      hexVal_hexChar (b % 16) (by omega), hrest]
    congr 2
    omega

theorem hexLoop_take (bytes buffer : List Nat) (hbytes : ∀ x ∈ bytes, x < 256) (k : Nat)
    (hk : k ≤ bytes.length) (hbuf : 2 * k ≤ buffer.length) :
    (List.range k).foldl
      (fun st i =>
        let r := print_hex_val (bytes.getD i 0) st.1 st.2
        (r.1, st.2 + r.2))
      (buffer, 0) = (hexText (bytes.take k) ++ buffer.drop (2 * k), 2 * k) := by
  induction k with
  | zero => simp [hexText]
  | succ k ih =>
    have hklt : k < bytes.length := hk
    rw [List.range_succ, List.foldl_append, ih (by omega) (by omega)]
    have h1 : 2 * k < buffer.length := by omega
    have h2 : 2 * k + 1 < buffer.length := by omega
    have hdrop : buffer.drop (2 * k) =
        buffer[2 * k] :: buffer[2 * k + 1] :: buffer.drop (2 * (k + 1)) := by
      rw [List.drop_eq_getElem_cons h1, List.drop_eq_getElem_cons h2]
      rfl
    have hget : bytes.getD k 0 = bytes[k] := by
      simp [List.getD_eq_getElem?_getD, List.getElem?_eq_getElem hklt]
    have hb : bytes[k] < 256 := hbytes _ (List.getElem_mem _)
    simp only [List.foldl_cons, List.foldl_nil, hget, hdrop]
    rw [print_hex_val_eq bytes[k] hb _ _ _ _ _ (by rw [hexText_length]; simp; omega)]
    have htake : bytes.take (k + 1) = bytes.take k ++ [bytes[k]] := by
      rw [List.take_succ, List.getElem?_eq_getElem hklt]
      rfl
    rw [htake, hexText_append]
    simp [hexText]
    omega

theorem hexLoop_eq (K : Headers) (bytes buffer : List Nat) (hbytes : ∀ x ∈ bytes, x < 256)
    (hlen : bytes.length = K.OGN_PKT_LEN) (hbuf : 2 * K.OGN_PKT_LEN ≤ buffer.length) :
    hexLoop K bytes buffer = (hexText bytes ++ buffer.drop (2 * K.OGN_PKT_LEN), 2 * K.OGN_PKT_LEN) := by
  unfold hexLoop
  rw [hexLoop_take bytes buffer hbytes K.OGN_PKT_LEN (by omega) hbuf, ← hlen, List.take_length]

theorem hexLine_eq (K : Headers) (bytes buffer : List Nat) (hbytes : ∀ x ∈ bytes, x < 256)
    (hlen : bytes.length = K.OGN_PKT_LEN) (hbuf : 2 * K.OGN_PKT_LEN + 3 ≤ buffer.length) :
    hexLine K bytes buffer =
      hexText bytes ++ 13 :: 10 :: 0 :: buffer.drop (2 * K.OGN_PKT_LEN + 3) := by
  unfold hexLine
  rw [hexLoop_eq K bytes buffer hbytes hlen (by omega)]
  have h1 : 2 * K.OGN_PKT_LEN < buffer.length := by omega
  have h2 : 2 * K.OGN_PKT_LEN + 1 < buffer.length := by omega
  have h3 : 2 * K.OGN_PKT_LEN + 2 < buffer.length := by omega
  have hdrop : buffer.drop (2 * K.OGN_PKT_LEN) =
      buffer[2 * K.OGN_PKT_LEN] :: buffer[2 * K.OGN_PKT_LEN + 1] ::
        buffer[2 * K.OGN_PKT_LEN + 2] :: buffer.drop (2 * K.OGN_PKT_LEN + 3) := by
    rw [List.drop_eq_getElem_cons h1, List.drop_eq_getElem_cons h2,
      List.drop_eq_getElem_cons h3]
  have hl : (hexText bytes).length = 2 * K.OGN_PKT_LEN := by rw [hexText_length, hlen]
  simp only [hdrop]
  rw [set_at_append _ _ _ _ _ hl.symm]
  have e1 : hexText bytes ++ 13 :: buffer[2 * K.OGN_PKT_LEN + 1] ::
      buffer[2 * K.OGN_PKT_LEN + 2] :: buffer.drop (2 * K.OGN_PKT_LEN + 3) =
      (hexText bytes ++ [13]) ++ buffer[2 * K.OGN_PKT_LEN + 1] ::
      buffer[2 * K.OGN_PKT_LEN + 2] :: buffer.drop (2 * K.OGN_PKT_LEN + 3) := by simp
  rw [e1, set_at_append _ _ _ _ _ (by simp [hl])]
  have e2 : (hexText bytes ++ [13]) ++ 10 ::
      buffer[2 * K.OGN_PKT_LEN + 2] :: buffer.drop (2 * K.OGN_PKT_LEN + 3) =
      (hexText bytes ++ [13, 10]) ++
      buffer[2 * K.OGN_PKT_LEN + 2] :: buffer.drop (2 * K.OGN_PKT_LEN + 3) := by simp
  rw [e2, set_at_append _ _ _ _ _ (by simp [hl])]
  simp

theorem cString_hexLine (bytes rest : List Nat) :
    cString (hexText bytes ++ 13 :: 10 :: 0 :: rest) = hexText bytes ++ [13, 10] := by
  unfold cString
  induction bytes with
  | nil => simp [hexText, List.takeWhile]
  | cons b tl ih =>
    simp only [hexText, List.cons_append]
    rw [List.takeWhile_cons_of_pos (by simpa using hexChar_ne_zero _),
      List.takeWhile_cons_of_pos (by simpa using hexChar_ne_zero _), ih]

theorem hexLine_length (K : Headers) (bytes buffer : List Nat)
    (hbytes : ∀ x ∈ bytes, x < 256) (hlen : bytes.length = K.OGN_PKT_LEN)
    (hbuf : 2 * K.OGN_PKT_LEN + 3 ≤ buffer.length) :
    (hexLine K bytes buffer).length = buffer.length := by
  rw [hexLine_eq K bytes buffer hbytes hlen hbuf]
  simp [hexText_length, hlen]
  omega

theorem sprintf_length (buffer text : List Nat) :
    buffer.length ≤ (sprintf buffer text).length := by
  simp [sprintf]
  omega

theorem protocolTable_eq (K : Headers) (hpt_table_arr : List HPT_Event) :
    protocolTable K hpt_table_arr = Table_OGN K := by
  unfold protocolTable Create_HPT_Table_OGN
  exact memcpyEvents_take _ _

theorem hptFireDue_frame (fuel : Nat) (h : HPTState) (log : List (Nat × HPT_Event))
    (r : Nat) :
    hptFireDue fuel { h with fired := log ++ h.fired, restarts := r } =
      { hptFireDue fuel h with
        fired := log ++ (hptFireDue fuel h).fired, restarts := r } := by
  induction fuel generalizing h with
  | zero => rfl
  | succ fuel ih =>
    simp only [hptFireDue]
    cases hget : h.table[h.index]? with
    | none => rfl
    | some ev =>
      simp only []
      by_cases hdue : ev.time ≤ h.elapsed
      · simp only [if_pos hdue]
        by_cases hres : ev.opcode = HPT_RESTART
        · simp only [if_pos hres, List.append_assoc]
        · simp only [if_neg hres]
          have := ih { h with index := h.index + 1, fired := h.fired ++ [(h.elapsed, ev)] }
          simp only [List.append_assoc] at this ⊢
          exact this
      · simp only [if_neg hdue]

theorem hptTick_frame (h : HPTState) (log : List (Nat × HPT_Event)) (r : Nat) :
    hptTick { h with fired := log ++ h.fired, restarts := r } =
      { hptTick h with fired := log ++ (hptTick h).fired, restarts := r } := by
  unfold hptTick
  exact hptFireDue_frame h.table.length { h with elapsed := h.elapsed + 1 } log r

theorem hptRun_frame (n : Nat) (h : HPTState) (log : List (Nat × HPT_Event)) (r : Nat) :
    hptRun n { h with fired := log ++ h.fired, restarts := r } =
      { hptRun n h with fired := log ++ (hptRun n h).fired, restarts := r } := by
  induction n with
  | zero => rfl
  | succ n ih =>
    simp only [hptRun]
    rw [ih]
    exact hptTick_frame (hptRun n h) log r

theorem hptRun_idle (n : Nat) (h : HPTState) (e0 : HPT_Event) (rest : List HPT_Event)
    (htab : h.table = e0 :: rest) (hidx : h.index = 0) (hn : h.elapsed + n < e0.time) :
    hptRun n h = { h with elapsed := h.elapsed + n } := by
  induction n with
  | zero => rfl
  | succ n ih =>
    simp only [hptRun]
    rw [ih (by omega)]
    unfold hptTick
    simp only [htab, List.length_cons, hptFireDue, hidx, List.getElem?_cons_zero]
    rw [if_neg (by omega)]
    rfl

theorem hptTick_first (h : HPTState) (e0 : HPT_Event) (rest : List HPT_Event)
    (htab : h.table = e0 :: rest) (hidx : h.index = 0) (hdue : h.elapsed + 1 = e0.time) :
    ∃ more, (hptTick h).fired = h.fired ++ (e0.time, e0) :: more := by
  unfold hptTick
  simp only [htab, List.length_cons, hptFireDue, hidx, List.getElem?_cons_zero]
  rw [if_pos (by omega)]
  by_cases hres : e0.opcode = HPT_RESTART
  · rw [if_pos hres]
    exact ⟨[], by simp [hdue]⟩
  · rw [if_neg hres]
    have hf := hptFireDue_frame rest.length
      { table := e0 :: rest, elapsed := h.elapsed + 1, index := 0 + 1, fired := [],
        restarts := h.restarts } (h.fired ++ [(h.elapsed + 1, e0)]) h.restarts
    simp only [List.append_nil] at hf
    rw [hf]
    exact ⟨_, by simp only [hdue, List.append_assoc, List.singleton_append]; rfl⟩

theorem rssiFields_samples :
    rssiFields (7 / 10) = some (0, 7) ∧ rssiFields (-19 / 10) = some (-1, 9) ∧
    rssiFields (-733 / 10) = some (-73, 3) := by
  refine ⟨?_, ?_, ?_⟩ <;> with_unfolding_all decide

/-! ## The claims -/

/-- C1. For every value of the operating-mode option byte, known or not, and
whatever the 16-cell array `hpt_table` held before, the table `vTaskControl`
loads fits the array (the array keeps its `MAX_HPT_TABLE_LEN` cells and the
table has at most that many entries), its offsets are non-decreasing (for a
monotone `TIMER_MS`), its last entry is `HPT_RESTART` and no earlier entry
is. -/
theorem loaded_table_well_formed (K : Headers) (hm : Monotone K.TIMER_MS)
    (oper_mode : Nat) (hpt_table : List HPT_Event)
    (hlen : hpt_table.length = MAX_HPT_TABLE_LEN) :
    (vTaskControl_select K oper_mode hpt_table).1.length = MAX_HPT_TABLE_LEN ∧
    (loadedTable K oper_mode hpt_table).length ≤ MAX_HPT_TABLE_LEN ∧
    ((loadedTable K oper_mode hpt_table).map HPT_Event.time).Sorted (· ≤ ·) ∧
    (loadedTable K oper_mode hpt_table).getLast?.map HPT_Event.opcode = some HPT_RESTART ∧
    ∀ e ∈ (loadedTable K oper_mode hpt_table).dropLast, e.opcode ≠ HPT_RESTART := by
  constructor
  · unfold vTaskControl_select Create_HPT_Table_OGN Create_HPT_Table_Idle
      Create_HPT_Table_Idle_Freq
    split_ifs <;>
      (rw [memcpyEvents_length _ _ (by rw [hlen]; simp [Table_OGN, Table_Idle,
        Table_Idle_Freq, MAX_HPT_TABLE_LEN])]; exact hlen)
  · rcases loadedTable_cases K oper_mode hpt_table with h | h | h <;> rw [h]
    · exact wellFormed_Table_OGN K hm
    · exact wellFormed_Table_Idle K hm
    · exact wellFormed_Table_Idle_Freq K hm

/-- Witness of C1: an unknown mode byte (`7`) on a 16-cell array. -/
theorem loaded_table_well_formed_witness :
    Monotone sampleHeaders.TIMER_MS ∧ sampleArray.length = MAX_HPT_TABLE_LEN ∧
    (vTaskControl_select sampleHeaders 7 sampleArray).1.length = MAX_HPT_TABLE_LEN ∧
    (loadedTable sampleHeaders 7 sampleArray).length ≤ MAX_HPT_TABLE_LEN ∧
    ((loadedTable sampleHeaders 7 sampleArray).map HPT_Event.time).Sorted (· ≤ ·) ∧
    (loadedTable sampleHeaders 7 sampleArray).getLast?.map HPT_Event.opcode
      = some HPT_RESTART ∧
    ∀ e ∈ (loadedTable sampleHeaders 7 sampleArray).dropLast, e.opcode ≠ HPT_RESTART :=
  ⟨fun _ _ h => h, rfl,
    loaded_table_well_formed sampleHeaders (fun _ _ h => h) 7 sampleArray rfl⟩

/-- C2. Table selection is total.  With the five case labels pairwise
distinct: `MODE_OGN` loads the 8-entry Protocol table whose last entry is
`HPT_RESTART` at `TIMER_MS(1000)`; `MODE_IDLE`, `MODE_CW` and `MODE_RX` load
the 2-entry Idle table (watchdog reload at `TIMER_MS(925)`, restart at
`TIMER_MS(1000)`); `MODE_JAMMER` loads the 4-entry table with the two channel
changes; every other value loads exactly what `MODE_OGN` loads. -/
theorem table_selection_total (K : Headers)
    (hd : [K.MODE_OGN, K.MODE_IDLE, K.MODE_CW, K.MODE_RX, K.MODE_JAMMER].Nodup)
    (oper_mode : Nat) (hpt_table : List HPT_Event) :
    (loadedTable K K.MODE_OGN hpt_table).length = 8 ∧
    (loadedTable K K.MODE_OGN hpt_table).getLast? = some ⟨K.TIMER_MS 1000, HPT_RESTART, 0⟩ ∧
    loadedTable K K.MODE_OGN hpt_table =
      [ ⟨K.TIMER_MS 150, HPT_COPY_PKT, 0⟩, ⟨K.TIMER_MS 300, HPT_SP1_CHANNEL, 4⟩,
        ⟨K.TIMER_MS 400, HPT_TX_PKT_LBT, 380⟩, ⟨K.TIMER_MS 800, HPT_SP1_CHANNEL, 2⟩,
        ⟨K.TIMER_MS 800, HPT_TX_PKT_LBT, 380⟩, ⟨K.TIMER_MS 925, HPT_IWDG_RELOAD, 0⟩,
        ⟨K.TIMER_MS 950, HPT_PREPARE_PKT, 0⟩, ⟨K.TIMER_MS 1000, HPT_RESTART, 0⟩ ] ∧
    (oper_mode = K.MODE_IDLE ∨ oper_mode = K.MODE_CW ∨ oper_mode = K.MODE_RX →
      loadedTable K oper_mode hpt_table =
        [ ⟨K.TIMER_MS 925, HPT_IWDG_RELOAD, 0⟩, ⟨K.TIMER_MS 1000, HPT_RESTART, 0⟩ ]) ∧
    (oper_mode = K.MODE_JAMMER →
      loadedTable K oper_mode hpt_table =
        [ ⟨K.TIMER_MS 300, HPT_SP1_CHANNEL, 4⟩, ⟨K.TIMER_MS 800, HPT_SP1_CHANNEL, 2⟩,
          ⟨K.TIMER_MS 925, HPT_IWDG_RELOAD, 0⟩, ⟨K.TIMER_MS 1000, HPT_RESTART, 0⟩ ]) ∧
    (oper_mode ∉ [K.MODE_OGN, K.MODE_IDLE, K.MODE_CW, K.MODE_RX, K.MODE_JAMMER] →
      vTaskControl_select K oper_mode hpt_table = vTaskControl_select K K.MODE_OGN hpt_table ∧
      loadedTable K oper_mode hpt_table = loadedTable K K.MODE_OGN hpt_table) := by
  simp only [List.nodup_cons, List.mem_cons, List.mem_singleton, List.not_mem_nil,
    not_or, List.nodup_nil, or_false, and_true, not_false_eq_true] at hd
  obtain ⟨⟨h01, h02, h03, h04⟩, ⟨h12, h13, h14⟩, ⟨h23, h24⟩, h34⟩ := hd
  have hogn : loadedTable K K.MODE_OGN hpt_table = Table_OGN K := by
    unfold loadedTable vTaskControl_select
    rw [if_pos rfl]
    exact memcpyEvents_take _ _
  refine ⟨by rw [hogn]; rfl, by rw [hogn]; rfl, hogn, ?_, ?_, ?_⟩
  · intro h
    have hne : oper_mode ≠ K.MODE_OGN := by
      rcases h with h | h | h <;> rw [h] <;> intro e <;> simp_all
    unfold loadedTable vTaskControl_select
    rw [if_neg hne, if_pos h]
    exact memcpyEvents_take _ _
  · intro h
    subst h
    unfold loadedTable vTaskControl_select
    rw [if_neg (Ne.symm h04), if_neg (by
      intro h; rcases h with h | h | h
      · exact h14 h.symm
      · exact h24 h.symm
      · exact h34 h.symm), if_pos rfl]
    exact memcpyEvents_take _ _
  · intro h
    simp only [List.mem_cons, List.mem_singleton, List.not_mem_nil, not_or, or_false] at h
    obtain ⟨n0, n1, n2, n3, n4⟩ := h
    have hsel : vTaskControl_select K oper_mode hpt_table
        = vTaskControl_select K K.MODE_OGN hpt_table := by
      unfold vTaskControl_select
      rw [if_neg n0, if_neg (by tauto), if_neg n4, if_pos rfl]
    exact ⟨hsel, by unfold loadedTable; rw [hsel]⟩

/-- Witness of C2: mode `2` (`MODE_CW` of the sample headers) loads the Idle
table and the unknown byte `200` loads what `MODE_OGN` loads. -/
theorem table_selection_total_witness :
    [sampleHeaders.MODE_OGN, sampleHeaders.MODE_IDLE, sampleHeaders.MODE_CW,
      sampleHeaders.MODE_RX, sampleHeaders.MODE_JAMMER].Nodup ∧
    loadedTable sampleHeaders 2 sampleArray =
      [ ⟨925, HPT_IWDG_RELOAD, 0⟩, ⟨1000, HPT_RESTART, 0⟩ ] ∧
    loadedTable sampleHeaders 200 sampleArray = loadedTable sampleHeaders 0 sampleArray ∧
    (loadedTable sampleHeaders 200 sampleArray).length = 8 :=
  ⟨by decide,
    (table_selection_total sampleHeaders (by decide) 2 sampleArray).2.2.2.1
      (Or.inr (Or.inl rfl)),
    ((table_selection_total sampleHeaders (by decide) 200 sampleArray).2.2.2.2.2
      (by decide)).2,
    by decide⟩

/-- C3. One run of the jammer timer callback, for a draw `r ≥ 0` and a jam
ratio byte `p`: it adds exactly one message to the Radio queue, the
`SP1_TX_PACKET` command, if `r mod 100 < p`, and none otherwise.  Hence no
draw transmits at `p = 0`, every draw transmits at `p = 100`, and for
`p ≤ 100` exactly `p` of the residues `0..99` transmit. -/
theorem jammer_transmits_iff_below_ratio (K : Headers) (r p : Nat) (hp : p < 256)
    (tr : List Effect) :
    sp1Sent (vCtrlTaskTimerCallback K p r tr) =
      sp1Sent tr ++
        (if r % 100 < p then
          [{ msg_data := 0, msg_len := 0, msg_opcode := K.SP1_TX_PACKET,
             src_id := K.CONSOLE_USART_SRC_ID }]
         else []) ∧
    (p = 0 → sp1Sent (vCtrlTaskTimerCallback K p r tr) = sp1Sent tr) ∧
    (p = 100 → ∃ m, sp1Sent (vCtrlTaskTimerCallback K p r tr) = sp1Sent tr ++ [m] ∧
      m.msg_opcode = K.SP1_TX_PACKET) ∧
    (p ≤ 100 →
      ((List.range 100).filter (fun x =>
        decide ((sp1Sent (vCtrlTaskTimerCallback K p x [])).length = 1))).length = p) := by
  have hr : r % 100 % 256 = r % 100 := by omega
  have hp256 : p % 256 = p := Nat.mod_eq_of_lt hp
  have key : ∀ (x : Nat) (t : List Effect), sp1Sent (vCtrlTaskTimerCallback K p x t) =
      sp1Sent t ++
        (if x % 100 < p then
          [{ msg_data := 0, msg_len := 0, msg_opcode := K.SP1_TX_PACKET,
             src_id := K.CONSOLE_USART_SRC_ID }]
         else []) := by
    intro x t
    have hx : x % 100 % 256 = x % 100 := by omega
    unfold vCtrlTaskTimerCallback
    simp only [hx, hp256]
    split_ifs <;> simp [sp1Sent_append, sp1Sent]
  refine ⟨key r tr, ?_, ?_, ?_⟩
  · intro h0
    rw [key, h0]
    simp
  · intro h100
    refine ⟨{ msg_data := 0, msg_len := 0, msg_opcode := K.SP1_TX_PACKET,
              src_id := K.CONSOLE_USART_SRC_ID }, ?_, rfl⟩
    rw [key, h100, if_pos (Nat.mod_lt _ (by norm_num))]
  · intro hle
    have hcongr : (List.range 100).filter (fun x =>
        decide ((sp1Sent (vCtrlTaskTimerCallback K p x [])).length = 1))
        = (List.range 100).filter (fun x => decide (x < p)) := by
      apply List.filter_congr
      intro x hx
      have hx100 : x % 100 = x := Nat.mod_eq_of_lt (List.mem_range.mp hx)
      rw [key, hx100]
      by_cases hlt : x < p <;> simp [hlt, sp1Sent]
    rw [hcongr]
    exact filter_lt_range_length 100 p hle

/-- Witness of C3: draw `1234` at ratio `35` transmits (`34 < 35`), and
exactly 35 of the 100 residues do. -/
theorem jammer_transmits_iff_below_ratio_witness :
    (35 : Nat) < 256 ∧ (35 : Nat) ≤ 100 ∧
    sp1Sent (vCtrlTaskTimerCallback sampleHeaders 35 1234 []) =
      [{ msg_data := 0, msg_len := 0, msg_opcode := sampleHeaders.SP1_TX_PACKET,
         src_id := sampleHeaders.CONSOLE_USART_SRC_ID }] ∧
    ((List.range 100).filter (fun x =>
      decide ((sp1Sent (vCtrlTaskTimerCallback sampleHeaders 35 x [])).length = 1))).length
      = 35 :=
  ⟨by decide, by decide,
    (jammer_transmits_iff_below_ratio sampleHeaders 1234 35 (by decide) []).1,
    (jammer_transmits_iff_below_ratio sampleHeaders 1234 35 (by decide) []).2.2.2
      (by decide)⟩

/-- C4. A copy event with no cached packet: when `Handle_hpt_msgs` handles an
`HPT_COPY_PKT` message while `TX_pkt_data` is `NULL`, it sends exactly one
message to the Radio queue, with opcode `SP1_COPY_OGN_PKT`, source
`CONTROL_SRC_ID`, length `OGN_PKT_LEN` and payload `0`, and changes nothing
else.  `TX_pkt_data` is `NULL` in the initial state and after a prepare event
whose packet builder returned `NULL`. -/
theorem copy_without_packet_sends_null (K : Headers) (s : ControlState)
    (msg prep : task_message) (prepared : Nat)
    (hd : K.opcodeValue HPT_COPY_PKT ≠ K.opcodeValue HPT_PREPARE_PKT)
    (hop : msg.msg_opcode = K.opcodeValue HPT_COPY_PKT)
    (hprep : prep.msg_opcode = K.opcodeValue HPT_PREPARE_PKT) :
    (s.TX_pkt_data = 0 →
      Handle_hpt_msgs K s msg prepared =
        { TX_pkt_data := 0,
          trace := s.trace ++ [xQueueSend_SP1
            { msg_data := 0, msg_len := K.OGN_PKT_LEN,
              msg_opcode := K.SP1_COPY_OGN_PKT, src_id := K.CONTROL_SRC_ID }] } ∧
      sp1Sent (Handle_hpt_msgs K s msg prepared).trace =
        sp1Sent s.trace ++
          [{ msg_data := 0, msg_len := K.OGN_PKT_LEN,
             msg_opcode := K.SP1_COPY_OGN_PKT, src_id := K.CONTROL_SRC_ID }]) ∧
    initialControlState.TX_pkt_data = 0 ∧
    (Handle_hpt_msgs K s prep 0).TX_pkt_data = 0 ∧
    sp1Sent (Handle_hpt_msgs K (Handle_hpt_msgs K s prep 0) msg prepared).trace =
      sp1Sent s.trace ++
        [{ msg_data := 0, msg_len := K.OGN_PKT_LEN,
           msg_opcode := K.SP1_COPY_OGN_PKT, src_id := K.CONTROL_SRC_ID }] := by
  have hprep0 : Handle_hpt_msgs K s prep 0 = { s with TX_pkt_data := 0 } := by
    unfold Handle_hpt_msgs
    rw [if_pos hprep]
  refine ⟨?_, rfl, by rw [hprep0], ?_⟩
  · intro hnull
    rw [Handle_hpt_msgs_copy K s msg prepared hd hop, hnull]
    simp [copyMessage, sp1Sent_append, sp1Sent]
  · rw [Handle_hpt_msgs_copy K _ msg prepared hd hop, hprep0]
    simp [copyMessage, sp1Sent_append, sp1Sent]

/-- Witness of C4: the first message after start-up is a copy event. -/
theorem copy_without_packet_sends_null_witness :
    sampleHeaders.opcodeValue HPT_COPY_PKT ≠ sampleHeaders.opcodeValue HPT_PREPARE_PKT ∧
    (hptMessage sampleHeaders HPT_COPY_PKT).msg_opcode
      = sampleHeaders.opcodeValue HPT_COPY_PKT ∧
    (hptMessage sampleHeaders HPT_PREPARE_PKT).msg_opcode
      = sampleHeaders.opcodeValue HPT_PREPARE_PKT ∧
    Handle_hpt_msgs sampleHeaders initialControlState
        (hptMessage sampleHeaders HPT_COPY_PKT) 0x20000100 =
      { TX_pkt_data := 0,
        trace := [xQueueSend_SP1 { msg_data := 0, msg_len := 26, msg_opcode := 1,
                                   src_id := 3 }] } :=
  ⟨by decide, rfl, rfl,
    ((copy_without_packet_sends_null sampleHeaders initialControlState
      (hptMessage sampleHeaders HPT_COPY_PKT) (hptMessage sampleHeaders HPT_PREPARE_PKT)
      0x20000100 (by decide) rfl rfl).1 rfl).1⟩

/-- C6. `PreShutDownSequence` makes exactly seven external calls, each once
and in this order: Console notification, Radio shutdown, GPS off, de-init of
the port C GPIO lines, write of `SHDN_MAGIC_NUM` to backup register
`SHDN_REG_NUM`, delay, system reset.  So the GPIO release comes before the
write of the marker, and the write before the reset, which is the last
call. -/
theorem shutdown_sequence_order (K : Headers) (tr : List Effect) :
    PreShutDownSequence K tr =
      tr ++ [ Console_Send (cLiteral "Shutdown...\r\n") 1, Spirit1EnterShutdown, GPS_Off,
              GPIO_DeInit_GPIOC, RTC_WriteBackupRegister K.SHDN_REG_NUM K.SHDN_MAGIC_NUM,
              vTaskDelay 500, NVIC_SystemReset ] ∧
    (PreShutDownSequence K []).Nodup ∧
    (PreShutDownSequence K []).length = 7 ∧
    (PreShutDownSequence K []).indexOf GPIO_DeInit_GPIOC <
      (PreShutDownSequence K []).indexOf
        (RTC_WriteBackupRegister K.SHDN_REG_NUM K.SHDN_MAGIC_NUM) ∧
    (PreShutDownSequence K []).indexOf
        (RTC_WriteBackupRegister K.SHDN_REG_NUM K.SHDN_MAGIC_NUM) <
      (PreShutDownSequence K []).indexOf NVIC_SystemReset ∧
    (PreShutDownSequence K tr).getLast? = some NVIC_SystemReset := by
  refine ⟨by simp [PreShutDownSequence], by simp [PreShutDownSequence],
    by simp [PreShutDownSequence], ?_, ?_, by simp [PreShutDownSequence]⟩
  · simp [PreShutDownSequence, List.indexOf_cons]
  · simp [PreShutDownSequence, List.indexOf_cons]

/-- C7. A PPS edge delivered at any elapsed time and any table position
resets the scheduler before the next scheduled event can fire.  Whenever
`EXTI9_5_IRQHandler` runs with EXTI line 6 pending it clears the pending bit
and calls `HPT_RestartFromISR` exactly once: elapsed time and index become
`0`, no event is executed, and a task switch is requested exactly when the
call reports one is needed; with line 6 not pending the scheduler is left
untouched and no switch is requested.  From the edge on the scheduler runs
as one freshly started on its table, whatever its position was: in the tick
of the edge itself the entry that was pending does not fire on the old
elapsed time, no event fires until the new elapsed time reaches the offset
of the first entry, and the first event to fire then is the first entry. -/
theorem pps_edge_restarts_scheduler (woken : Bool) (h : HPTState) (n : Nat)
    (e0 : HPT_Event) (rest : List HPT_Event) :
    (EXTI9_5_IRQHandler woken true h).hpt =
      { h with elapsed := 0, index := 0, restarts := h.restarts + 1 } ∧
    (EXTI9_5_IRQHandler woken true h).yield = woken ∧
    (EXTI9_5_IRQHandler woken true h).pending6 = false ∧
    (EXTI9_5_IRQHandler woken false h).hpt = h ∧
    (EXTI9_5_IRQHandler woken false h).yield = false ∧
    hptRun n (EXTI9_5_IRQHandler woken true h).hpt =
      { hptRun n (HPT_Start h.table) with
        fired := h.fired ++ (hptRun n (HPT_Start h.table)).fired,
        restarts := h.restarts + 1 } ∧
    (ppsTick woken true h).fired = h.fired ++ (hptTick (HPT_Start h.table)).fired ∧
    (h.table = e0 :: rest → n < e0.time →
      (hptRun n (EXTI9_5_IRQHandler woken true h).hpt).fired = h.fired ∧
      (hptRun n (EXTI9_5_IRQHandler woken true h).hpt).elapsed = n ∧
      (hptRun n (EXTI9_5_IRQHandler woken true h).hpt).index = 0) ∧
    (h.table = e0 :: rest → n + 1 = e0.time →
      ∃ more, (hptRun (n + 1) (EXTI9_5_IRQHandler woken true h).hpt).fired =
        h.fired ++ (e0.time, e0) :: more) := by
  have hpost : (EXTI9_5_IRQHandler woken true h).hpt =
      { h with elapsed := 0, index := 0, restarts := h.restarts + 1 } := rfl
  have hfresh : ∀ k, hptRun k (EXTI9_5_IRQHandler woken true h).hpt =
      { hptRun k (HPT_Start h.table) with
        fired := h.fired ++ (hptRun k (HPT_Start h.table)).fired,
        restarts := h.restarts + 1 } := by
    intro k
    have hf := hptRun_frame k (HPT_Start h.table) h.fired (h.restarts + 1)
    rw [← hf, hpost]
    simp [HPT_Start]
  have hidle : ∀ k, h.table = e0 :: rest → k < e0.time →
      hptRun k (EXTI9_5_IRQHandler woken true h).hpt =
        { h with elapsed := k, index := 0, restarts := h.restarts + 1 } := by
    intro k htab hk
    rw [hpost, hptRun_idle k { h with elapsed := 0, index := 0, restarts := h.restarts + 1 }
      e0 rest htab rfl (by simpa using hk)]
    simp
  refine ⟨hpost, rfl, rfl, rfl, rfl, hfresh n, ?_, ?_, ?_⟩
  · have h1 := hfresh 1
    simp only [hptRun] at h1
    unfold ppsTick
    rw [h1]
  · intro htab hn
    rw [hidle n htab hn]
    exact ⟨rfl, rfl, rfl⟩
  · intro htab hn
    simp only [hptRun]
    rw [hidle n htab (by omega)]
    exact hptTick_first _ e0 rest htab rfl hn

/-- Witness of C7: the Protocol table 399 ticks into the cycle, the transmit
entry at 400 about to fire.  Without a PPS edge the next tick fires it; with
a PPS edge in that tick nothing fires, nothing has fired 149 ticks after the
edge, and the next event to fire is the first entry, 150 ticks after the
edge. -/
theorem pps_edge_restarts_scheduler_witness :
    (hptTick sampleScheduler).fired =
      sampleScheduler.fired ++ [(400, ⟨400, HPT_TX_PKT_LBT, 380⟩)] ∧
    (ppsTick true true sampleScheduler).fired = sampleScheduler.fired ∧
    ((hptRun 149 (EXTI9_5_IRQHandler true true sampleScheduler).hpt).fired =
        sampleScheduler.fired ∧
      (hptRun 149 (EXTI9_5_IRQHandler true true sampleScheduler).hpt).elapsed = 149 ∧
      (hptRun 149 (EXTI9_5_IRQHandler true true sampleScheduler).hpt).index = 0) ∧
    ∃ more, (hptRun (149 + 1) (EXTI9_5_IRQHandler true true sampleScheduler).hpt).fired =
      sampleScheduler.fired ++ (150, ⟨150, HPT_COPY_PKT, 0⟩) :: more :=
  ⟨by decide, by decide,
    (pps_edge_restarts_scheduler true sampleScheduler 149 ⟨150, HPT_COPY_PKT, 0⟩
      (Table_OGN sampleHeaders).tail).2.2.2.2.2.2.2.1 rfl (by decide),
    (pps_edge_restarts_scheduler true sampleScheduler 149 ⟨150, HPT_COPY_PKT, 0⟩
      (Table_OGN sampleHeaders).tail).2.2.2.2.2.2.2.2 rfl rfl⟩

/-- C10. `Handle_hpt_msgs` changes `TX_pkt_data` only on `HPT_PREPARE_PKT`:
a message with any other opcode, `HPT_COPY_PKT` included, leaves it as it
was.  So after any sequence of messages `pre`, a copy event forwards the
result of the most recent prepare event of `pre` (the initial value when
there is none, which is `NULL` from start-up), and a second copy event with
no prepare event in between forwards the same reference. -/
theorem copy_forwards_last_prepared (K : Headers)
    (hd : K.opcodeValue HPT_COPY_PKT ≠ K.opcodeValue HPT_PREPARE_PKT)
    (s : ControlState) (msg c1 c2 : task_message) (p p1 p2 : Nat)
    (pre mid : List (task_message × Nat))
    (hc1 : c1.msg_opcode = K.opcodeValue HPT_COPY_PKT)
    (hc2 : c2.msg_opcode = K.opcodeValue HPT_COPY_PKT)
    (hmid : ∀ x ∈ mid, x.1.msg_opcode ≠ K.opcodeValue HPT_PREPARE_PKT) :
    (msg.msg_opcode ≠ K.opcodeValue HPT_PREPARE_PKT →
      (Handle_hpt_msgs K s msg p).TX_pkt_data = s.TX_pkt_data) ∧
    (Handle_hpt_msgs K s c1 p1).TX_pkt_data = s.TX_pkt_data ∧
    (handleAll K s (pre ++ [(c1, p1)])).trace =
      (handleAll K s pre).trace ++
        [xQueueSend_SP1 (copyMessage K (lastPrepared K s.TX_pkt_data pre))] ∧
    (handleAll K initialControlState (pre ++ [(c1, p1)])).trace =
      (handleAll K initialControlState pre).trace ++
        [xQueueSend_SP1 (copyMessage K (lastPrepared K 0 pre))] ∧
    (handleAll K s (pre ++ [(c1, p1)] ++ mid ++ [(c2, p2)])).trace =
      (handleAll K s (pre ++ [(c1, p1)] ++ mid)).trace ++
        [xQueueSend_SP1 (copyMessage K (lastPrepared K s.TX_pkt_data pre))] := by
  have hcopyTX : ∀ (st : ControlState) (c : task_message) (q : Nat),
      c.msg_opcode = K.opcodeValue HPT_COPY_PKT →
      (Handle_hpt_msgs K st c q).TX_pkt_data = st.TX_pkt_data := by
    intro st c q hc
    rw [Handle_hpt_msgs_copy K st c q hd hc]
  have hsnoc : ∀ (st : ControlState) (xs : List (task_message × Nat)) (c : task_message)
      (q : Nat), c.msg_opcode = K.opcodeValue HPT_COPY_PKT →
      (handleAll K st (xs ++ [(c, q)])).trace =
        (handleAll K st xs).trace ++
          [xQueueSend_SP1 (copyMessage K (lastPrepared K st.TX_pkt_data xs))] := by
    intro st xs c q hc
    rw [handleAll_append]
    show (Handle_hpt_msgs K (handleAll K st xs) c q).trace = _
    rw [Handle_hpt_msgs_copy K _ c q hd hc, handleAll_TX_pkt_data]
  refine ⟨?_, hcopyTX s c1 p1 hc1, hsnoc s pre c1 p1 hc1,
    hsnoc initialControlState pre c1 p1 hc1, ?_⟩
  · intro hne
    unfold Handle_hpt_msgs
    rw [if_neg hne]
    split_ifs <;> rfl
  · rw [hsnoc s (pre ++ [(c1, p1)] ++ mid) c2 p2 hc2]
    have hc1' : ∀ x ∈ [(c1, p1)], x.1.msg_opcode ≠ K.opcodeValue HPT_PREPARE_PKT := by
      intro x hx
      rw [List.mem_singleton] at hx
      rw [hx, hc1]
      exact hd
    rw [lastPrepared_append, lastPrepared_append,
      lastPrepared_no_prepare K _ mid hmid, lastPrepared_no_prepare K _ _ hc1']

/-- Witness of C10: prepare (builder returns `0x20000100`), an unrelated
opcode, copy, another unrelated opcode, copy: both copy events forward
`0x20000100`. -/
theorem copy_forwards_last_prepared_witness :
    sampleHeaders.opcodeValue HPT_COPY_PKT ≠ sampleHeaders.opcodeValue HPT_PREPARE_PKT ∧
    (handleAll sampleHeaders initialControlState
      ([(hptMessage sampleHeaders HPT_PREPARE_PKT, 0x20000100),
        (hptMessage sampleHeaders HPT_GPIO_UP, 0x20000200)] ++
       [(hptMessage sampleHeaders HPT_COPY_PKT, 0x20000300)] ++
       [(hptMessage sampleHeaders HPT_SEND_PKT, 0x20000400)] ++
       [(hptMessage sampleHeaders HPT_COPY_PKT, 0x20000500)])).trace =
      (handleAll sampleHeaders initialControlState
        ([(hptMessage sampleHeaders HPT_PREPARE_PKT, 0x20000100),
          (hptMessage sampleHeaders HPT_GPIO_UP, 0x20000200)] ++
         [(hptMessage sampleHeaders HPT_COPY_PKT, 0x20000300)] ++
         [(hptMessage sampleHeaders HPT_SEND_PKT, 0x20000400)])).trace ++
        [xQueueSend_SP1 (copyMessage sampleHeaders
          (lastPrepared sampleHeaders initialControlState.TX_pkt_data
            [(hptMessage sampleHeaders HPT_PREPARE_PKT, 0x20000100),
             (hptMessage sampleHeaders HPT_GPIO_UP, 0x20000200)]))] ∧
    lastPrepared sampleHeaders initialControlState.TX_pkt_data
      [(hptMessage sampleHeaders HPT_PREPARE_PKT, 0x20000100),
       (hptMessage sampleHeaders HPT_GPIO_UP, 0x20000200)] = 0x20000100 :=
  ⟨by decide,
    (copy_forwards_last_prepared sampleHeaders (by decide) initialControlState
      (hptMessage sampleHeaders HPT_GPIO_UP)
      (hptMessage sampleHeaders HPT_COPY_PKT) (hptMessage sampleHeaders HPT_COPY_PKT)
      0 0x20000300 0x20000500
      [(hptMessage sampleHeaders HPT_PREPARE_PKT, 0x20000100),
       (hptMessage sampleHeaders HPT_GPIO_UP, 0x20000200)]
      [(hptMessage sampleHeaders HPT_SEND_PKT, 0x20000400)]
      rfl rfl (by decide)).2.2.2.2,
    by decide⟩

/-- C5. The power-down timer as a one-shot timer of `TIMER_MS(1000)` ticks
whose start call resets its deadline, for every pattern of wake-line edges
and as long as the system has not gone through its reset: (a) the timer runs
exactly when the most recent edge is less than a period old, and its
deadline is that edge plus one period, however many edges came before;
(b) the debounce callback runs at tick `T` exactly when the most recent edge
before `T` was one period earlier; it then performs the shutdown sequence if
PC13 reads set at `T` and makes no call at all if PC13 reads clear; (c) at
every other tick no callback runs and no call is made. -/
theorem debounce_callback_after_last_edge (K : Headers) (inp : PowerInputs)
    (hP : 0 < K.TIMER_MS 1000) (T : Nat)
    (hrun : (powerRun K inp T).halted = false) :
    (∀ d, (powerRun K inp T).xPowerDownTimer = some d ↔
      ∃ e, e < T ∧ inp.edge e = true ∧ (∀ u, e < u → u < T → inp.edge u = false) ∧
        d = e + K.TIMER_MS 1000 ∧ T ≤ d) ∧
    ((∃ e, e + K.TIMER_MS 1000 = T ∧ inp.edge e = true ∧
        ∀ u, e < u → u < T → inp.edge u = false) →
      (powerRun K inp (T + 1)).runs = (powerRun K inp T).runs ++ [T] ∧
      (powerRun K inp (T + 1)).trace =
        (if inp.pc13 T = true then PreShutDownSequence K (powerRun K inp T).trace
         else (powerRun K inp T).trace) ∧
      (powerRun K inp (T + 1)).halted = inp.pc13 T) ∧
    (¬ (∃ e, e + K.TIMER_MS 1000 = T ∧ inp.edge e = true ∧
        ∀ u, e < u → u < T → inp.edge u = false) →
      (powerRun K inp (T + 1)).runs = (powerRun K inp T).runs ∧
      (powerRun K inp (T + 1)).trace = (powerRun K inp T).trace) := by
  have hstep : powerRun K inp (T + 1) = powerTick K inp T (powerRun K inp T) := rfl
  have hfires : (powerRun K inp T).xPowerDownTimer = some T ↔
      ∃ e, e + K.TIMER_MS 1000 = T ∧ inp.edge e = true ∧
        ∀ u, e < u → u < T → inp.edge u = false := by
    rw [powerRun_timer K inp hP T hrun T]
    constructor
    · rintro ⟨e, he, hT, _⟩
      obtain ⟨_, h2, h3⟩ := (lastEdge_eq_some_iff inp.edge T e).mp he
      exact ⟨e, hT.symm, h2, h3⟩
    · rintro ⟨e, hT, h2, h3⟩
      exact ⟨e, (lastEdge_eq_some_iff inp.edge T e).mpr ⟨by omega, h2, h3⟩, hT.symm,
        le_refl _⟩
  refine ⟨?_, ?_, ?_⟩
  · intro d
    rw [powerRun_timer K inp hP T hrun d]
    constructor
    · rintro ⟨e, he, hd, hle⟩
      obtain ⟨h1, h2, h3⟩ := (lastEdge_eq_some_iff inp.edge T e).mp he
      exact ⟨e, h1, h2, h3, hd, hle⟩
    · rintro ⟨e, h1, h2, h3, hd, hle⟩
      exact ⟨e, (lastEdge_eq_some_iff inp.edge T e).mpr ⟨h1, h2, h3⟩, hd, hle⟩
  · intro hex
    have hfire := hfires.mpr hex
    cases hpin : inp.pc13 T
    · rw [hstep, powerTick_fire_clear K inp T _ hrun hfire hpin]
      refine ⟨rfl, by simp, ?_⟩
      exact hrun
    · rw [hstep, powerTick_fire_set K inp T _ hrun hfire hpin]
      refine ⟨rfl, by simp, ?_⟩
      exact decide_eq_true (PreShutDownSequence_halts K _)
  · intro hex
    have hne : (powerRun K inp T).xPowerDownTimer ≠ some T := fun h => hex (hfires.mp h)
    rw [hstep, powerTick_idle K inp T _ hrun hne]
    exact ⟨rfl, rfl⟩

/-- Witness of C5: 10-tick period, edges at ticks 1 and 4, PC13 set at tick
14.  The callback runs at tick 14 (not at 11) and performs the shutdown. -/
theorem debounce_callback_after_last_edge_witness :
    0 < tickHeaders.TIMER_MS 1000 ∧
    (powerRun tickHeaders sampleInputs 14).halted = false ∧
    (powerRun tickHeaders sampleInputs 14).runs = [] ∧
    (powerRun tickHeaders sampleInputs 15).runs = (powerRun tickHeaders sampleInputs 14).runs ++ [14] ∧
    (powerRun tickHeaders sampleInputs 15).trace =
      (if sampleInputs.pc13 14 = true then
        PreShutDownSequence tickHeaders (powerRun tickHeaders sampleInputs 14).trace
       else (powerRun tickHeaders sampleInputs 14).trace) ∧
    (powerRun tickHeaders sampleInputs 15).halted = sampleInputs.pc13 14 :=
  ⟨by decide, by decide, by decide,
    (debounce_callback_after_last_edge tickHeaders sampleInputs (by decide) 14
      (by decide)).2.1
      ⟨4, by decide, by decide, fun u h1 h2 => by
        have hu : u ≠ 1 ∧ u ≠ 4 := by omega
        simp [sampleInputs, hu.1, hu.2]⟩⟩

/-- C8. For every byte `b`, `print_hex_val` returns 2 and writes exactly two
characters, at `dest[0]` and `dest[1]`, both from `0-9`/`A-F`, whose value as
a base-16 number, high nibble first, is `b`.  Hence, for a packet of
`OGN_PKT_LEN` bytes whose dump fits the 80-character buffer, the second and
third line `Print_packet` sends to the Console (payload bytes, then
error-mask bytes) are each `2*OGN_PKT_LEN` hexadecimal digits that decode
back to the bytes in order, followed by `\r\n`. -/
theorem hex_dump_round_trip (K : Headers) (b off : Nat) (dest : List Nat)
    (packet : rcv_packet_str) (buffer : List Nat) (tr : List Effect)
    (hb : b < 256) (hoff : off + 1 < dest.length)
    (hN : 2 * K.OGN_PKT_LEN + 3 ≤ 80) (hbuf : buffer.length = 80)
    (hdl : packet.data_ptr.length = K.OGN_PKT_LEN)
    (hel : packet.err_ptr.length = K.OGN_PKT_LEN)
    (hdb : ∀ x ∈ packet.data_ptr, x < 256) (heb : ∀ x ∈ packet.err_ptr, x < 256) :
    (print_hex_val b dest off).2 = 2 ∧
    (print_hex_val b dest off).1.length = dest.length ∧
    (print_hex_val b dest off).1.take off = dest.take off ∧
    (print_hex_val b dest off).1.drop (off + 2) = dest.drop (off + 2) ∧
    (∃ hi lo x y, ((print_hex_val b dest off).1.drop off).take 2 = [hi, lo] ∧
      hexVal hi = some x ∧ hexVal lo = some y ∧ 16 * x + y = b) ∧
    ∃ d1 d2,
      Print_packet K packet buffer tr =
        tr ++ [ Console_Send (cString (sprintf buffer (firstLine packet))) 1,
                Console_Send (d1 ++ [13, 10]) 1,
                Console_Send (d2 ++ [13, 10]) 1 ] ∧
      d1.length = 2 * K.OGN_PKT_LEN ∧ decodeHex d1 = some packet.data_ptr ∧
      d2.length = 2 * K.OGN_PKT_LEN ∧ decodeHex d2 = some packet.err_ptr := by
  have h0 : off < dest.length := by omega
  have hsplit : dest = dest.take off ++ dest[off] :: dest[off + 1] :: dest.drop (off + 2) := by
    rw [← List.drop_eq_getElem_cons hoff, ← List.drop_eq_getElem_cons h0,
      List.take_append_drop]
  have hpl : (dest.take off).length = off := by
    rw [List.length_take]; omega
  have hval : print_hex_val b dest off =
      (dest.take off ++ hexChar (b / 16) :: hexChar (b % 16) :: dest.drop (off + 2), 2) := by
    conv_lhs => rw [hsplit]
    exact print_hex_val_eq b hb _ _ _ _ off hpl.symm
  have hre : dest.take off ++ hexChar (b / 16) :: hexChar (b % 16) :: dest.drop (off + 2) =
      (dest.take off ++ [hexChar (b / 16), hexChar (b % 16)]) ++ dest.drop (off + 2) := by
    simp
  refine ⟨by rw [hval], ?_, ?_, ?_, ?_, ?_⟩
  · rw [hval]
    simp only [List.length_append, List.length_cons, List.length_take, List.length_drop]
    omega
  · rw [hval]
    exact List.take_left' hpl
  · rw [hval]
    simp only [hre]
    exact List.drop_left' (by simp [hpl])
  · refine ⟨hexChar (b / 16), hexChar (b % 16), b / 16, b % 16, ?_,
      hexVal_hexChar _ (by omega), hexVal_hexChar _ (by omega), by omega⟩
    rw [hval]
    simp only [List.drop_left' hpl]
    rfl
  · have hb1 : 2 * K.OGN_PKT_LEN + 3 ≤ (sprintf buffer (firstLine packet)).length := by
      have := sprintf_length buffer (firstLine packet)
      omega
    have hb2 : 2 * K.OGN_PKT_LEN + 3 ≤
        (hexLine K packet.data_ptr (sprintf buffer (firstLine packet))).length := by
      rw [hexLine_length K _ _ hdb hdl hb1]
      exact hb1
    refine ⟨hexText packet.data_ptr, hexText packet.err_ptr, ?_,
      by rw [hexText_length, hdl], decodeHex_hexText _ hdb,
      by rw [hexText_length, hel], decodeHex_hexText _ heb⟩
    unfold Print_packet
    simp only [List.append_assoc, List.singleton_append]
    rw [hexLine_eq K packet.err_ptr _ heb hel hb2, cString_hexLine,
      hexLine_eq K packet.data_ptr _ hdb hdl hb1, cString_hexLine]
    rfl

/-- Witness of C8: byte `0x3A` written at offset 1 of a 4-character buffer,
and a two-byte packet dumped through an 80-character buffer. -/
theorem hex_dump_round_trip_witness :
    (print_hex_val 0x3A [7, 7, 7, 7] 1) = ([7, 51, 65, 7], 2) ∧
    ∃ d1 d2,
      Print_packet smallHeaders samplePacket (List.replicate 80 7) [] =
        [] ++ [ Console_Send (cString (sprintf (List.replicate 80 7) (firstLine samplePacket))) 1,
                Console_Send (d1 ++ [13, 10]) 1,
                Console_Send (d2 ++ [13, 10]) 1 ] ∧
      d1.length = 2 * smallHeaders.OGN_PKT_LEN ∧ decodeHex d1 = some samplePacket.data_ptr ∧
      d2.length = 2 * smallHeaders.OGN_PKT_LEN ∧ decodeHex d2 = some samplePacket.err_ptr :=
  ⟨by decide,
    (hex_dump_round_trip smallHeaders 0x3A 1 [7, 7, 7, 7] samplePacket (List.replicate 80 7) []
      (by decide) (by decide) (by decide) (by decide) rfl rfl (by decide) (by decide)).2.2.2.2.2⟩

/-- C9, the code at RSSI `-1/2`: `Print_packet` passes `Int = 0` and
`Frac = 5` to `sprintf`, and since `-0` is `0` the conversion `%+d` prints a
plus sign: the text is `+0.5dBm`, and the first line of the sample packet
reads `RSSI: +0.5dBm` although the RSSI is negative. -/
theorem rssi_minus_half_prints_plus :
    samplePacket.rssi < 0 ∧
    rssiFields samplePacket.rssi = some (0, 5) ∧
    rssiText samplePacket.rssi = cLiteral "+0.5dBm" ∧
    firstLine samplePacket =
      cLiteral "Packet received: RSSI: +0.5dBm, LQI: 0, PQI: 0, SQI: 0\r\n" := by
  have hr : samplePacket.rssi = -1 / 2 := rfl
  have hf : rssiFields (-1 / 2) = some (0, 5) := by
    with_unfolding_all decide
  have ht : rssiText (-1 / 2) = cLiteral "+0.5dBm" := by
    simp only [rssiText, hf]
    decide
  refine ⟨by rw [hr]; norm_num, by rw [hr]; exact hf, by rw [hr]; exact ht, ?_⟩
  simp only [firstLine, hr, ht]
  decide

/-- C11, the claim as stated fails on the Protocol table (offsets in
milliseconds, cycle 1000 ms): the window `[800, 1180)` of the second
`HPT_TX_PKT_LBT` entry (offset 800, window 380) holds the following cycle's
`HPT_COPY_PKT`, scheduled at `150 + 1000 = 1150`. -/
theorem lbt_window_holds_next_copy :
    lbtWindowsClear (protocolTable sampleHeaders sampleArray) 1000 = false ∧
    (⟨800, HPT_TX_PKT_LBT, 380⟩ : HPT_Event) ∈ protocolTable sampleHeaders sampleArray ∧
    (⟨150, HPT_COPY_PKT, 0⟩ : HPT_Event) ∈ protocolTable sampleHeaders sampleArray ∧
    (1150, (⟨150, HPT_COPY_PKT, 0⟩ : HPT_Event)) ∈
      twoCycles (protocolTable sampleHeaders sampleArray) 1000 ∧
    800 ≤ 150 + 1000 ∧ 150 + 1000 < 800 + 380 := by
  decide

/-- C11, amended.  In the Protocol table built by `Create_HPT_Table_OGN`, with
offsets in milliseconds (`TIMER_MS` the identity) and a cycle of 1000 ms,
there are two `HPT_TX_PKT_LBT` entries, at 400 and at 800, each with window
380.  The window `[400, 780)` of the first holds no `HPT_SP1_CHANNEL` or
`HPT_COPY_PKT` event of this or the following cycle.  The window
`[800, 1180)` of the second holds exactly two: the `HPT_SP1_CHANNEL` at its
own offset 800, which is the table entry just before it, and the following
cycle's `HPT_COPY_PKT` at 1150. -/
theorem lbt_windows_of_protocol_table (K : Headers) (hms : ∀ x, K.TIMER_MS x = x)
    (hpt_table_arr : List HPT_Event) :
    (protocolTable K hpt_table_arr).filter (fun e => decide (e.opcode = HPT_TX_PKT_LBT)) =
      [⟨400, HPT_TX_PKT_LBT, 380⟩, ⟨800, HPT_TX_PKT_LBT, 380⟩] ∧
    windowDisturbers (protocolTable K hpt_table_arr) 1000 ⟨400, HPT_TX_PKT_LBT, 380⟩ = [] ∧
    windowDisturbers (protocolTable K hpt_table_arr) 1000 ⟨800, HPT_TX_PKT_LBT, 380⟩ =
      [(800, ⟨800, HPT_SP1_CHANNEL, 2⟩), (1150, ⟨150, HPT_COPY_PKT, 0⟩)] ∧
    (protocolTable K hpt_table_arr).indexOf ⟨800, HPT_SP1_CHANNEL, 2⟩ + 1 =
      (protocolTable K hpt_table_arr).indexOf ⟨800, HPT_TX_PKT_LBT, 380⟩ := by
  have htab : protocolTable K hpt_table_arr =
      [ ⟨150, HPT_COPY_PKT, 0⟩, ⟨300, HPT_SP1_CHANNEL, 4⟩, ⟨400, HPT_TX_PKT_LBT, 380⟩,
        ⟨800, HPT_SP1_CHANNEL, 2⟩, ⟨800, HPT_TX_PKT_LBT, 380⟩, ⟨925, HPT_IWDG_RELOAD, 0⟩,
        ⟨950, HPT_PREPARE_PKT, 0⟩, ⟨1000, HPT_RESTART, 0⟩ ] := by
    rw [protocolTable_eq]
    simp only [Table_OGN, hms]
  rw [htab]
  decide

/-- Witness of C11, amended: the sample headers, whose `TIMER_MS` is the
identity. -/
theorem lbt_windows_of_protocol_table_witness :
    (∀ x, sampleHeaders.TIMER_MS x = x) ∧
    windowDisturbers (protocolTable sampleHeaders sampleArray) 1000
      ⟨400, HPT_TX_PKT_LBT, 380⟩ = [] ∧
    windowDisturbers (protocolTable sampleHeaders sampleArray) 1000
      ⟨800, HPT_TX_PKT_LBT, 380⟩ =
      [(800, ⟨800, HPT_SP1_CHANNEL, 2⟩), (1150, ⟨150, HPT_COPY_PKT, 0⟩)] :=
  ⟨fun _ => rfl,
    (lbt_windows_of_protocol_table sampleHeaders (fun _ => rfl) sampleArray).2.1,
    (lbt_windows_of_protocol_table sampleHeaders (fun _ => rfl) sampleArray).2.2.1⟩

end OgnTracker
